import Mathlib

/-!
# Verification of the lightshow signal-to-command pipeline

Shallow embedding of the core audio-to-lighting pipeline
(CueScheduler, BeatGrid, BeatDetector, ShowPlanner, RuleEvaluator,
VariationSelector, MappingEngine, AdvancedAnalyzer) with proofs of the
stated behavioural properties.  JavaScript numbers are modelled as `ℚ`,
`Math.floor` as `Int.floor`, `Math.round` as `fun x => ⌊x + 1/2⌋`,
`Math.random()` draws as an explicit stream `ℕ → ℚ` consumed in call
order, and `Date.now()` as an explicit `now` argument.
-/

namespace LightShow

/-- JavaScript `Math.round` (round half toward positive infinity). -/
def jsRound (x : ℚ) : ℤ := ⌊x + 1/2⌋

/-- An RGB colour triple. -/
structure RGB where
  r : ℚ
  g : ℚ
  b : ℚ
  deriving Repr, DecidableEq

/-! ## CueScheduler (src/audio/CueScheduler.ts) -/

/-- Public cue value (`LightingCue`): `repeat?` (modelled as field `repeat_`) is `none` when absent. -/
structure LightingCue where
  atBeat : ℚ
  action : String
  targets : List String
  repeat_ : Option ℚ
  name : Option String
  deriving Repr, DecidableEq

/-- Internal cue representation with firing-state tracking (`InternalCue`). -/
structure InternalCue extends LightingCue where
  id : String
  lastFiredBeat : ℚ
  nextFireBeat : ℚ
  deriving Repr, DecidableEq

/-- `addCue` initialises the tracking fields of a new internal cue. -/
def addCueInit (cue : LightingCue) (id : String) : InternalCue :=
  { cue with id := id, lastFiredBeat := -1, nextFireBeat := cue.atBeat }

/-- Scheduler state: cue map (in insertion order), last processed beat, enabled flag. -/
structure SchedState where
  cues : List InternalCue
  lastProcessedBeat : ℚ
  enabled : Bool
  deriving Repr, DecidableEq

/-- `CueScheduler.shouldFireCue`.  JS truthiness: `!cue.repeat_` holds when
`repeat` is absent or `0`. -/
def shouldFireCue (cue : InternalCue) (currentBeat lastBeat : ℚ) : Bool :=
  match cue.repeat_ with
  | none =>
      currentBeat ≥ cue.atBeat && lastBeat < cue.atBeat && cue.lastFiredBeat < cue.atBeat
  | some r =>
      if r = 0 then
        currentBeat ≥ cue.atBeat && lastBeat < cue.atBeat && cue.lastFiredBeat < cue.atBeat
      else
        let beatsSinceStart := currentBeat - cue.atBeat
        if beatsSinceStart < 0 then false
        else
          let currentRepeatIndex : ℤ := ⌊beatsSinceStart / r⌋
          let lastRepeatIndex : ℤ := ⌊(lastBeat - cue.atBeat) / r⌋
          currentRepeatIndex > lastRepeatIndex && currentRepeatIndex ≥ 0

/-- Per-cue body of the `update` loop: fire decision plus tracking update. -/
def updateCueStep (cue : InternalCue) (currentBeat lastBeat : ℚ) :
    Option LightingCue × InternalCue :=
  if shouldFireCue cue currentBeat lastBeat then
    let fired := cue.toLightingCue
    let cue := { cue with lastFiredBeat := currentBeat }
    let cue :=
      match cue.repeat_ with
      | some r =>
          if r > 0 then
            { cue with nextFireBeat := cue.atBeat + ⌈(currentBeat - cue.atBeat) / r⌉ * r }
          else cue
      | none => cue
    (some fired, cue)
  else (none, cue)

/-- `CueScheduler.update`, with the beat position already computed from the
beat grid (`currentBeat = beatInfo.beat + beatInfo.phase`). -/
def updateAtBeat (s : SchedState) (currentBeat : ℚ) : List LightingCue × SchedState :=
  if !s.enabled then ([], s)
  else
    let step := s.cues.map (fun c => updateCueStep c currentBeat s.lastProcessedBeat)
    (step.filterMap Prod.fst,
     { s with cues := step.map Prod.snd, lastProcessedBeat := currentBeat })

/-- `CueScheduler.setEnabled`. -/
def setEnabled (s : SchedState) (e : Bool) : SchedState := { s with enabled := e }

/-- `CueScheduler.reset`: clears firing state only, keeping the cue set. -/
def resetSched (s : SchedState) : SchedState :=
  { s with
    lastProcessedBeat := -1,
    cues := s.cues.map (fun c => { c with lastFiredBeat := -1, nextFireBeat := c.atBeat }) }

/-- Run a sequence of `update` calls, collecting each call's fired list. -/
def runSched (s : SchedState) : List ℚ → List (List LightingCue) × SchedState
  | [] => ([], s)
  | x :: xs =>
      let (fired, s') := updateAtBeat s x
      let (rest, s'') := runSched s' xs
      (fired :: rest, s'')

/-- No upward crossing of `b` occurs along a beat sequence starting from `prev`. -/
def noCrossing (b : ℚ) : ℚ → List ℚ → Bool
  | _, [] => true
  | prev, x :: xs => !(x ≥ b && prev < b) && noCrossing b x xs

/-- Shorthand for a freshly added single-cue scheduler. -/
def singleCueSched (cue : LightingCue) : SchedState :=
  { cues := [addCueInit cue "cue_0"], lastProcessedBeat := -1, enabled := true }

lemma updateAtBeat_single (c : InternalCue) (last x : ℚ) :
    updateAtBeat ⟨[c], last, true⟩ x =
      if shouldFireCue c x last then
        ([c.toLightingCue], ⟨[(updateCueStep c x last).2], x, true⟩)
      else ([], ⟨[c], x, true⟩) := by
  by_cases h : shouldFireCue c x last <;>
    simp [updateAtBeat, updateCueStep, h]

lemma shouldFireCue_nonrep (c : InternalCue)
    (hrep : c.repeat_ = none ∨ c.repeat_ = some 0) (x last : ℚ) :
    shouldFireCue c x last =
      (c.atBeat ≤ x && last < c.atBeat && c.lastFiredBeat < c.atBeat) := by
  rcases hrep with h | h <;> simp [shouldFireCue, h, ge_iff_le]

lemma updateCueStep_nonrep_snd (c : InternalCue)
    (hrep : c.repeat_ = none ∨ c.repeat_ = some 0) (x last : ℚ)
    (hfire : shouldFireCue c x last = true) :
    (updateCueStep c x last).2 = { c with lastFiredBeat := x } := by
  rcases hrep with h | h <;> simp [updateCueStep, hfire, h]

/-- Invariant for a single non-repeating cue: the `lastFiredBeat < atBeat`
guard stays open exactly while no crossing has happened yet. -/
lemma runSched_nonrep_inv (base : LightingCue)
    (hrep : base.repeat_ = none ∨ base.repeat_ = some 0) :
    ∀ (xs : List ℚ) (prev lf nf : ℚ),
      ∃ lf' nf',
        (runSched ⟨[{ base with id := "cue_0", lastFiredBeat := lf, nextFireBeat := nf }],
            prev, true⟩ xs).2 =
          ⟨[{ base with id := "cue_0", lastFiredBeat := lf', nextFireBeat := nf' }],
            xs.getLastD prev, true⟩ ∧
        ((lf' < base.atBeat) ↔ (lf < base.atBeat ∧ noCrossing base.atBeat prev xs = true)) := by
  intro xs
  induction xs with
  | nil =>
      intro prev lf nf
      exact ⟨lf, nf, rfl, by simp [noCrossing]⟩
  | cons x xs ih =>
      intro prev lf nf
      set c : InternalCue :=
        { base with id := "cue_0", lastFiredBeat := lf, nextFireBeat := nf } with hc
      by_cases hfire : shouldFireCue c x prev
      · -- the cue fires at this step: lastFiredBeat becomes `x ≥ atBeat`
        have hcond := (shouldFireCue_nonrep c hrep x prev).symm.trans hfire
        simp only [Bool.and_eq_true, decide_eq_true_eq] at hcond
        obtain ⟨⟨hxb, hprev⟩, hlf⟩ := hcond
        obtain ⟨lf', nf', hrun, hiff⟩ := ih x x ((updateCueStep c x prev).2.nextFireBeat)
        refine ⟨lf', nf', ?_, ?_⟩
        · have hstep : (updateCueStep c x prev).2 = { c with lastFiredBeat := x } :=
            updateCueStep_nonrep_snd c hrep x prev hfire
          simp only [runSched, updateAtBeat_single, hfire, if_true, List.getLastD_cons]
          rw [hstep] at hrun ⊢
          simpa [c] using hrun
        · rw [hiff]
          simp only [noCrossing, Bool.and_eq_true, Bool.not_eq_true']
          constructor
          · rintro ⟨hxlt, -⟩; exact absurd hxb (not_le.mpr hxlt)
          · rintro ⟨-, hcr, -⟩
            simp only [ge_iff_le, Bool.and_eq_false_iff, decide_eq_false_iff_not,
              not_le, not_lt] at hcr
            rcases hcr with h | h
            · exact absurd hxb (not_le.mpr h)
            · exact absurd hprev (not_lt.mpr h)
      · -- no fire: the cue is unchanged
        obtain ⟨lf', nf', hrun, hiff⟩ := ih x lf nf
        refine ⟨lf', nf', ?_, ?_⟩
        · simp only [runSched, updateAtBeat_single, hfire, if_false, List.getLastD_cons]
          simpa [c] using hrun
        · rw [hiff]
          have hcond : (c.atBeat ≤ x && prev < c.atBeat && c.lastFiredBeat < c.atBeat) = false := by
            rw [← shouldFireCue_nonrep c hrep x prev]
            exact Bool.eq_false_iff.mpr hfire
          simp only [Bool.and_eq_false_iff, decide_eq_false_iff_not, not_le, not_lt, c] at hcond
          simp only [noCrossing, Bool.and_eq_true, Bool.not_eq_true']
          constructor
          · rintro ⟨hlf, hcr⟩
            refine ⟨hlf, ?_, hcr⟩
            simp only [ge_iff_le, Bool.and_eq_false_iff, decide_eq_false_iff_not, not_le, not_lt]
            rcases hcond with (h | h) | h
            · exact Or.inl h
            · exact Or.inr h
            · exact absurd hlf (not_lt.mpr h)
          · rintro ⟨hlf, -, hcr⟩
            exact ⟨hlf, hcr⟩

/-- **C1.** A non-repeating cue (repeat absent or 0) with target beat `b`,
scheduled on a fresh scheduler and driven by any sequence of `update` calls
with the computed (hence non-negative) beat positions `xs₁` before the current
call at `x`, fires at the current call iff `x` is the first upward crossing of
`b`: `x ≥ b`, the previous update's beat was `< b`, and no earlier adjacent
pair crossed `b`.  Hence it fires exactly once over a crossing sequence and is
never returned again on later updates; each update returns it at most once. -/
theorem C1_nonrepeating_cue_fires_once_on_first_crossing
    (b : ℚ) (act : String) (tg : List String) (nm : Option String) (rep : Option ℚ)
    (hrep : rep = none ∨ rep = some 0) (xs₁ : List ℚ) (x : ℚ)
    (hnn : ∀ y ∈ xs₁, 0 ≤ y) :
    ((updateAtBeat (runSched (singleCueSched ⟨b, act, tg, rep, nm⟩) xs₁).2 x).1 ≠ [] ↔
      (b ≤ x ∧ xs₁.getLastD (-1) < b ∧ noCrossing b (-1) xs₁ = true))
    ∧ (updateAtBeat (runSched (singleCueSched ⟨b, act, tg, rep, nm⟩) xs₁).2 x).1.length ≤ 1 := by
  have hrep' : (addCueInit ⟨b, act, tg, rep, nm⟩ "cue_0").repeat_ = none ∨
      (addCueInit ⟨b, act, tg, rep, nm⟩ "cue_0").repeat_ = some 0 := hrep
  obtain ⟨lf', nf', hrun, hiff⟩ :=
    runSched_nonrep_inv ⟨b, act, tg, rep, nm⟩ hrep xs₁ (-1) (-1) b
  have hrun' : (runSched (singleCueSched ⟨b, act, tg, rep, nm⟩) xs₁).2 =
      ⟨[{ (⟨b, act, tg, rep, nm⟩ : LightingCue) with
            id := "cue_0", lastFiredBeat := lf', nextFireBeat := nf' }],
        xs₁.getLastD (-1), true⟩ := by
    simpa [singleCueSched, addCueInit] using hrun
  rw [hrun']
  set c' : InternalCue :=
    { (⟨b, act, tg, rep, nm⟩ : LightingCue) with
        id := "cue_0", lastFiredBeat := lf', nextFireBeat := nf' } with hc'
  constructor
  · rw [updateAtBeat_single]
    by_cases hfire : shouldFireCue c' x (xs₁.getLastD (-1))
    · have hcond : (c'.atBeat ≤ x && xs₁.getLastD (-1) < c'.atBeat &&
          c'.lastFiredBeat < c'.atBeat) = true := by
        rw [← shouldFireCue_nonrep c' hrep x (xs₁.getLastD (-1))]; exact hfire
      simp only [Bool.and_eq_true, decide_eq_true_eq, c'] at hcond
      obtain ⟨⟨hxb, hprev⟩, hlf⟩ := hcond
      rw [if_pos hfire]
      have hnc : noCrossing b (-1) xs₁ = true := (hiff.mp hlf).2
      exact ⟨fun _ => ⟨hxb, hprev, hnc⟩, fun _ => by simp⟩
    · have hcond : (c'.atBeat ≤ x && xs₁.getLastD (-1) < c'.atBeat &&
          c'.lastFiredBeat < c'.atBeat) = false := by
        rw [← shouldFireCue_nonrep c' hrep x (xs₁.getLastD (-1))]
        exact Bool.eq_false_iff.mpr hfire
      simp only [Bool.and_eq_false_iff, decide_eq_false_iff_not, not_le, not_lt, c'] at hcond
      rw [if_neg hfire]
      simp only [ne_eq, not_true_eq_false, false_iff]
      rintro ⟨hxb, hprev, hnc⟩
      rcases hcond with (h | h) | h
      · exact absurd hxb (not_le.mpr h)
      · exact absurd hprev (not_lt.mpr h)
      · -- the guard is closed: a crossing already happened
        have hlf' : lf' < b := by
          refine hiff.mpr ⟨?_, hnc⟩
          -- `-1 < b` follows since the previous beat (`-1` or a non-negative input) is `< b`
          rcases List.eq_nil_or_concat xs₁ with hnil | ⟨ys, y, hys⟩
          · simpa [hnil] using hprev
          · have hy : 0 ≤ y := hnn y (by simp [hys])
            have : y < b := by simpa [hys, List.getLastD_concat] using hprev
            linarith
        exact absurd hlf' (not_lt.mpr h)
  · rw [updateAtBeat_single]
    by_cases hfire : shouldFireCue c' x (xs₁.getLastD (-1))
    · rw [if_pos hfire]; simp
    · rw [if_neg hfire]; simp

/-- Witness for C1: a cue at beat 4 on the sequence 3.5 then 4.2 fires at 4.2. -/
theorem C1_witness :
    ((none : Option ℚ) = none ∨ (none : Option ℚ) = some 0) ∧
      (∀ y ∈ [(7/2 : ℚ)], 0 ≤ y) ∧
      (((updateAtBeat (runSched (singleCueSched ⟨4, "flash", ["all"], none, none⟩)
            [(7/2 : ℚ)]).2 (21/5)).1 ≠ [] ↔
        ((4 : ℚ) ≤ 21/5 ∧ [(7/2 : ℚ)].getLastD (-1) < 4 ∧ noCrossing 4 (-1) [(7/2 : ℚ)] = true))
      ∧ (updateAtBeat (runSched (singleCueSched ⟨4, "flash", ["all"], none, none⟩)
            [(7/2 : ℚ)]).2 (21/5)).1.length ≤ 1) :=
  ⟨Or.inl rfl, by norm_num,
    C1_nonrepeating_cue_fires_once_on_first_crossing 4 "flash" ["all"] none none
      (Or.inl rfl) [(7/2 : ℚ)] (21/5) (by norm_num)⟩

/-- **C2.** A repeating cue with period `R > 0` anchored at `atBeat` fires on an
`update` call exactly when `currentBeat - atBeat ≥ 0` and
`⌊(currentBeat - atBeat)/R⌋ > ⌊(lastBeat - atBeat)/R⌋`, and any single update
returns it at most once; in particular a cue with `atBeat = 0`, `repeat = 2` on
the beat sequence 0,1,…,6 fires exactly at 0, 2, 4 and 6. -/
theorem C2_repeating_cue_fires_on_boundary_crossing
    (atB R last x lf nf : ℚ) (act : String) (tg : List String) (nm : Option String)
    (hR : 0 < R) :
    (((updateAtBeat ⟨[{ (⟨atB, act, tg, some R, nm⟩ : LightingCue) with
          id := "cue_0", lastFiredBeat := lf, nextFireBeat := nf }], last, true⟩ x).1 ≠ [] ↔
        (0 ≤ x - atB ∧ ⌊(x - atB) / R⌋ > ⌊(last - atB) / R⌋))
      ∧ (updateAtBeat ⟨[{ (⟨atB, act, tg, some R, nm⟩ : LightingCue) with
          id := "cue_0", lastFiredBeat := lf, nextFireBeat := nf }], last, true⟩ x).1.length ≤ 1)
    ∧ ((runSched (singleCueSched ⟨0, "pulse", ["all"], some 2, none⟩)
          [0, 1, 2, 3, 4, 5, 6]).1.map List.length = [1, 0, 1, 0, 1, 0, 1]) := by
  refine ⟨⟨?_, ?_⟩, by
    norm_num [runSched, updateAtBeat, updateCueStep, shouldFireCue, singleCueSched, addCueInit,
      List.filterMap_cons, List.filterMap_nil]⟩
  · rw [updateAtBeat_single]
    have hR' : R ≠ 0 := ne_of_gt hR
    by_cases hge : (0:ℚ) ≤ x - atB
    · have hfl : (0:ℤ) ≤ ⌊(x - atB) / R⌋ :=
        Int.floor_nonneg.mpr (div_nonneg hge (le_of_lt hR))
      by_cases hcross : ⌊(x - atB) / R⌋ > ⌊(last - atB) / R⌋
      · have hfire : shouldFireCue { (⟨atB, act, tg, some R, nm⟩ : LightingCue) with
            id := "cue_0", lastFiredBeat := lf, nextFireBeat := nf } x last = true := by
          simp [shouldFireCue, hR', not_lt.mpr hge, hcross, hfl]
        simp [hfire, hge, hcross]
      · have hfire : shouldFireCue { (⟨atB, act, tg, some R, nm⟩ : LightingCue) with
            id := "cue_0", lastFiredBeat := lf, nextFireBeat := nf } x last = false := by
          simp [shouldFireCue, hR', not_lt.mpr hge, hcross]
        simp [hfire, hcross]
    · have hfire : shouldFireCue { (⟨atB, act, tg, some R, nm⟩ : LightingCue) with
          id := "cue_0", lastFiredBeat := lf, nextFireBeat := nf } x last = false := by
        simp [shouldFireCue, hR', not_le.mp hge]
      simp [hfire, hge]
  · rw [updateAtBeat_single]
    by_cases hfire : shouldFireCue { (⟨atB, act, tg, some R, nm⟩ : LightingCue) with
        id := "cue_0", lastFiredBeat := lf, nextFireBeat := nf } x last <;> simp [hfire]

/-- Concrete internal cue used by the C2 witness. -/
def c2cue : InternalCue :=
  { atBeat := 0, action := "pulse", targets := ["all"], repeat_ := some 2, name := none,
    id := "cue_0", lastFiredBeat := -1, nextFireBeat := 0 }

/-- Witness for C2: with `atBeat = 0`, `R = 2`, previous beat 1 and current
beat 2, the boundary-crossing characterisation is discharged concretely. -/
theorem C2_witness :
    (0 : ℚ) < 2 ∧
      ((((updateAtBeat ⟨[c2cue], 1, true⟩ 2).1 ≠ [] ↔
            (0 ≤ (2:ℚ) - 0 ∧ ⌊((2:ℚ) - 0) / 2⌋ > ⌊((1:ℚ) - 0) / 2⌋)) ∧
          (updateAtBeat ⟨[c2cue], 1, true⟩ 2).1.length ≤ 1) ∧
        (runSched (singleCueSched ⟨0, "pulse", ["all"], some 2, none⟩)
            [0, 1, 2, 3, 4, 5, 6]).1.map List.length = [1, 0, 1, 0, 1, 0, 1]) :=
  ⟨by norm_num,
    C2_repeating_cue_fires_on_boundary_crossing 0 2 1 2 (-1) 0 "pulse" ["all"] none
      (by norm_num)⟩

/-- **C10.** With the scheduler disabled via `setEnabled(false)`, every
`update` call returns the empty list and leaves the whole scheduler state
(cue set, each cue's `lastFiredBeat`/`nextFireBeat`, `lastProcessedBeat`)
unchanged. -/
theorem C10_disabled_update_is_noop (s : SchedState) (x : ℚ) :
    updateAtBeat (setEnabled s false) x = ([], setEnabled s false) := by
  simp [updateAtBeat, setEnabled]

/-! ## BeatGrid -/

/-- Beat grid over sorted beat/downbeat timestamp arrays. -/
structure BeatGrid where
  bpm : ℚ
  beats : List ℚ
  downbeats : List ℚ
  beatsPerBar : ℕ
  deriving Repr, DecidableEq

/-- `BeatGrid.isDownbeatIndex`. -/
def isDownbeatIndex (g : BeatGrid) (beatIndex : ℕ) : Bool :=
  if g.downbeats = [] then beatIndex % g.beatsPerBar == 0
  else
    let beatTime := g.beats.getD beatIndex 0
    g.downbeats.any (fun downbeat => |downbeat - beatTime| < 1/20)

/-- Result of `BeatGrid.getBeatAt`. -/
structure GridBeatInfo where
  beat : ℤ
  phase : ℚ
  isDownbeat : Bool
  deriving Repr, DecidableEq

/-- Linear scan of `getBeatAt` locating the bracketing beat index. -/
def findBeatIndex (t : ℚ) : List ℚ → ℕ → ℕ
  | b₁ :: b₂ :: bs, i => if t ≥ b₁ ∧ t < b₂ then i else findBeatIndex t (b₂ :: bs) (i + 1)
  | _, _ => 0

/-- `BeatGrid.getBeatAt` (assumes a non-empty beat list, as the JS code does). -/
def getBeatAt (g : BeatGrid) (t : ℚ) : GridBeatInfo :=
  let b0 := g.beats.headD 0
  if t < b0 then
    { beat := 0, phase := max 0 (t / b0), isDownbeat := isDownbeatIndex g 0 }
  else
    let lastIdx := g.beats.length - 1
    let lastBeat := g.beats.getLastD 0
    if t ≥ lastBeat then
      let beatInterval := 60 / g.bpm
      let timeSinceLastBeat := t - lastBeat
      let extraBeats : ℤ := ⌊timeSinceLastBeat / beatInterval⌋
      let phase := (timeSinceLastBeat - ⌊timeSinceLastBeat / beatInterval⌋ * beatInterval) / beatInterval
      { beat := (lastIdx : ℤ) + extraBeats, phase := phase,
        isDownbeat := ((lastIdx : ℤ) + extraBeats) % (g.beatsPerBar : ℤ) == 0 }
    else
      let beatIndex := findBeatIndex t g.beats 0
      let currentBeatTime := g.beats.getD beatIndex 0
      let nextBeatTime :=
        if beatIndex < g.beats.length - 1 then g.beats.getD (beatIndex + 1) 0
        else currentBeatTime + 60 / g.bpm
      let phase := (t - currentBeatTime) / (nextBeatTime - currentBeatTime)
      { beat := (beatIndex : ℤ), phase := max 0 (min 1 phase),
        isDownbeat := isDownbeatIndex g beatIndex }

/-- The nearest-beat scan inside `BeatGrid.quantize`, threading
`(nearestBeat, minDistance)`. -/
def nearestLoop (t : ℚ) : List ℚ → ℚ × ℚ → ℚ × ℚ
  | [], acc => acc
  | b :: bs, (nb, md) =>
      if |t - b| < md then nearestLoop t bs (b, |t - b|) else nearestLoop t bs (nb, md)

/-- The `(nearestBeat, minDistance)` pair of `BeatGrid.quantize` after the
scan over analyzed beats and the extrapolated-beat check beyond the grid. -/
def quantizeBest (g : BeatGrid) (t : ℚ) : ℚ × ℚ :=
  let b0 := g.beats.headD 0
  let scan := nearestLoop t g.beats (b0, |t - b0|)
  let lastBeat := g.beats.getLastD 0
  if t > lastBeat then
    let beatInterval := 60 / g.bpm
    let beatsSinceLast := jsRound ((t - lastBeat) / beatInterval)
    let extrapolatedBeat := lastBeat + beatsSinceLast * beatInterval
    if |t - extrapolatedBeat| < scan.2 then (extrapolatedBeat, |t - extrapolatedBeat|)
    else scan
  else scan

/-- `BeatGrid.quantize(timeSeconds, threshold)`: snap to the located nearest
beat when within `beatInterval * threshold`, else return the input. -/
def quantize (g : BeatGrid) (t h : ℚ) : ℚ :=
  if g.beats = [] then t
  else if (quantizeBest g t).2 ≤ 60 / g.bpm * h then (quantizeBest g t).1 else t

/-- The candidate set of C6: analyzed beats plus, when `t` lies past the last
analyzed beat, beats extrapolated from it at the fixed `60/bpm` interval. -/
def quantizeCandidate (g : BeatGrid) (t c : ℚ) : Prop :=
  c ∈ g.beats ∨
    (t > g.beats.getLastD 0 ∧ ∃ k : ℕ, c = g.beats.getLastD 0 + (k : ℚ) * (60 / g.bpm))

/-- The nearest-beat scan returns a pair `(nearest, distance)` where the
distance is attained, the nearest value comes from the accumulator or the
list, and the distance is minimal over accumulator and list. -/
lemma nearestLoop_spec (t : ℚ) :
    ∀ (bs : List ℚ) (nb md : ℚ), md = |t - nb| →
      (nearestLoop t bs (nb, md)).2 = |t - (nearestLoop t bs (nb, md)).1| ∧
      ((nearestLoop t bs (nb, md)).1 = nb ∨ (nearestLoop t bs (nb, md)).1 ∈ bs) ∧
      (nearestLoop t bs (nb, md)).2 ≤ md ∧
      ∀ b ∈ bs, (nearestLoop t bs (nb, md)).2 ≤ |t - b| := by
  intro bs
  induction bs with
  | nil => intro nb md hmd; simp [nearestLoop, hmd]
  | cons b bs ih =>
      intro nb md hmd
      by_cases hlt : |t - b| < md
      · obtain ⟨h1, h2, h3, h4⟩ := ih b |t - b| rfl
        refine ⟨?_, ?_, ?_, ?_⟩
        · simpa [nearestLoop, hlt] using h1
        · simp only [nearestLoop, hlt, if_true]
          rcases h2 with h | h
          · exact Or.inr (by simp [h])
          · exact Or.inr (by simp [h])
        · simp only [nearestLoop, hlt, if_true]
          exact le_trans h3 (le_of_lt hlt)
        · intro b' hb'
          simp only [nearestLoop, hlt, if_true]
          rcases List.mem_cons.mp hb' with h | h
          · subst h; exact h3
          · exact h4 b' h
      · obtain ⟨h1, h2, h3, h4⟩ := ih nb md hmd
        refine ⟨?_, ?_, ?_, ?_⟩
        · simpa [nearestLoop, hlt] using h1
        · simp only [nearestLoop, hlt, if_false]
          rcases h2 with h | h
          · exact Or.inl h
          · exact Or.inr (by simp [h])
        · simpa [nearestLoop, hlt] using h3
        · intro b' hb'
          simp only [nearestLoop, hlt, if_false]
          rcases List.mem_cons.mp hb' with h | h
          · subst h; exact le_trans h3 (not_lt.mp hlt)
          · exact h4 b' h

/-- `jsRound` yields a nearest integer: `|x - round x| ≤ |x - k|` for all `k`. -/
lemma jsRound_nearest (x : ℚ) (k : ℤ) : |x - (jsRound x : ℚ)| ≤ |x - (k : ℚ)| := by
  have hlow : (⌊x + 1/2⌋ : ℚ) ≤ x + 1/2 := Int.floor_le _
  have hhigh : x + 1/2 < (⌊x + 1/2⌋ : ℚ) + 1 := Int.lt_floor_add_one _
  have habs : |x - (jsRound x : ℚ)| ≤ 1/2 := by
    rw [abs_le]
    constructor <;> simp only [jsRound] <;> linarith
  by_cases hk : k = jsRound x
  · subst hk; exact le_refl _
  · have hdist : (1 : ℚ) ≤ |(jsRound x : ℚ) - (k : ℚ)| := by
      have hne : jsRound x - k ≠ 0 := sub_ne_zero.mpr (fun hcon => hk hcon.symm)
      have h1 : (1 : ℤ) ≤ |jsRound x - k| := Int.one_le_abs hne
      calc (1 : ℚ) = ((1 : ℤ) : ℚ) := by norm_num
        _ ≤ ((|jsRound x - k| : ℤ) : ℚ) := by exact_mod_cast h1
        _ = |(jsRound x : ℚ) - (k : ℚ)| := by push_cast; ring_nf
    have htri : |(jsRound x : ℚ) - (k : ℚ)| ≤ |x - (jsRound x : ℚ)| + |x - (k : ℚ)| := by
      calc |(jsRound x : ℚ) - (k : ℚ)| = |((jsRound x : ℚ) - x) + (x - (k : ℚ))| := by ring_nf
        _ ≤ |(jsRound x : ℚ) - x| + |x - (k : ℚ)| := abs_add _ _
        _ = |x - (jsRound x : ℚ)| + |x - (k : ℚ)| := by rw [abs_sub_comm]
    linarith

/-- The pair located by `quantize`'s search attains its recorded distance, is
a candidate (analyzed or extrapolated), and minimises the distance to `t`
over all candidates. -/
lemma quantizeBest_spec (g : BeatGrid) (t : ℚ) (hne : g.beats ≠ []) (hbpm : 0 < g.bpm) :
    (quantizeBest g t).2 = |t - (quantizeBest g t).1| ∧
    quantizeCandidate g t (quantizeBest g t).1 ∧
    ∀ c, quantizeCandidate g t c → (quantizeBest g t).2 ≤ |t - c| := by
  have hb0 : g.beats.headD 0 ∈ g.beats := by
    obtain ⟨a, l, hal⟩ := List.exists_cons_of_ne_nil hne
    rw [hal]; simp
  obtain ⟨hd, hmem, hle, hmin⟩ :=
    nearestLoop_spec t g.beats (g.beats.headD 0) |t - g.beats.headD 0| rfl
  have hscanmem : (nearestLoop t g.beats (g.beats.headD 0, |t - g.beats.headD 0|)).1 ∈
      g.beats := by
    rcases hmem with hm | hm
    · rw [hm]; exact hb0
    · exact hm
  have hI : (0:ℚ) < 60 / g.bpm := div_pos (by norm_num) hbpm
  set I : ℚ := 60 / g.bpm with hIdef
  set last : ℚ := g.beats.getLastD 0 with hlast
  set scan := nearestLoop t g.beats (g.beats.headD 0, |t - g.beats.headD 0|) with hscan
  by_cases hpast : t > last
  · -- beyond the last analyzed beat: also consider the rounded extrapolated beat
    set x : ℚ := (t - last) / I with hx
    have hxI : x * I = t - last := div_mul_cancel₀ (t - last) (ne_of_gt hI)
    have key : ∀ (k : ℤ), |t - (last + (k : ℚ) * I)| = |x - (k : ℚ)| * I := by
      intro k
      have heq : t - (last + (k : ℚ) * I) = (x - (k : ℚ)) * I := by
        rw [sub_mul, hxI]; ring
      rw [heq, abs_mul, abs_of_pos hI]
    have hext : ∀ (k : ℤ),
        |t - (last + (jsRound x : ℚ) * I)| ≤ |t - (last + (k : ℚ) * I)| := by
      intro k
      rw [key, key]
      exact mul_le_mul_of_nonneg_right (jsRound_nearest x k) (le_of_lt hI)
    have hk0 : 0 ≤ jsRound x := by
      have hxpos : 0 < x := div_pos (by linarith) hI
      have : (0:ℚ) ≤ x + 1/2 := by linarith
      exact Int.floor_nonneg.mpr this
    have hqb : quantizeBest g t =
        if |t - (last + (jsRound x : ℚ) * I)| < scan.2 then
          (last + (jsRound x : ℚ) * I, |t - (last + (jsRound x : ℚ) * I)|)
        else scan := by
      simp only [quantizeBest, ← hscan, ← hlast, ← hIdef, ← hx, hpast, if_true]
    by_cases hcmp : |t - (last + (jsRound x : ℚ) * I)| < scan.2
    · rw [hqb, if_pos hcmp]
      refine ⟨rfl, ?_, ?_⟩
      · refine Or.inr ⟨hpast, (jsRound x).toNat, ?_⟩
        have hcast : (((jsRound x).toNat : ℕ) : ℚ) = ((jsRound x : ℤ) : ℚ) := by
          exact_mod_cast Int.toNat_of_nonneg hk0
        rw [← hlast, ← hIdef, hcast]
      · rintro c (hc | ⟨-, k, hk⟩)
        · exact le_trans (le_of_lt hcmp) (hd ▸ hmin c hc)
        · rw [hk, ← hIdef]
          exact_mod_cast hext (k : ℤ)
    · rw [hqb, if_neg hcmp]
      refine ⟨hd, Or.inl hscanmem, ?_⟩
      rintro c (hc | ⟨-, k, hk⟩)
      · exact hmin c hc
      · rw [hk, ← hIdef]
        calc scan.2 ≤ |t - (last + (jsRound x : ℚ) * I)| := not_lt.mp hcmp
          _ ≤ |t - (last + (k : ℚ) * I)| := by exact_mod_cast hext (k : ℤ)
  · -- within the analyzed range: only analyzed beats are candidates
    have hqb : quantizeBest g t = scan := by
      simp only [quantizeBest, ← hscan, ← hlast, hpast, if_false]
    rw [hqb]
    refine ⟨hd, Or.inl hscanmem, ?_⟩
    rintro c (hc | ⟨hp, -⟩)
    · exact hmin c hc
    · exact absurd hp hpast

/-- **C6.** For a grid with a non-empty (sorted) beat list and positive BPM,
`quantize(t, h)` returns the nearest beat — among analyzed beats and, for `t`
past the last analyzed beat, beats extrapolated at the fixed `60/bpm`
interval — whenever its distance from `t` is within `h * (60/bpm)`, and
otherwise returns `t` unchanged. -/
theorem C6_quantize_snaps_to_nearest_beat (g : BeatGrid) (t h : ℚ)
    (hne : g.beats ≠ []) (_hsort : g.beats.Sorted (· ≤ ·)) (hbpm : 0 < g.bpm) :
    (∃ c, quantizeCandidate g t c ∧ |t - c| ≤ 60 / g.bpm * h ∧
        (∀ c', quantizeCandidate g t c' → |t - c| ≤ |t - c'|) ∧ quantize g t h = c)
    ∨ (quantize g t h = t ∧ ∀ c', quantizeCandidate g t c' → 60 / g.bpm * h < |t - c'|) := by
  obtain ⟨hd, hcand, hmin⟩ := quantizeBest_spec g t hne hbpm
  by_cases hsnap : (quantizeBest g t).2 ≤ 60 / g.bpm * h
  · left
    refine ⟨(quantizeBest g t).1, hcand, hd ▸ hsnap, fun c' hc' => hd ▸ hmin c' hc', ?_⟩
    simp [quantize, hne, hsnap]
  · right
    constructor
    · simp [quantize, hne, hsnap]
    · intro c' hc'
      have h1 := hmin c' hc'
      have h2 := not_le.mp hsnap
      linarith

/-- Witness for C6 on the grid `bpm = 60`, `beats = [0, 1]`: quantizing
`t = 13/5` with threshold `1/2` exercises the extrapolation path. -/
theorem C6_witness :
    (([0, 1] : List ℚ) ≠ [] ∧ ([0, 1] : List ℚ).Sorted (· ≤ ·) ∧ (0:ℚ) < 60) ∧
      ((∃ c, quantizeCandidate ⟨60, [0, 1], [0], 4⟩ (13/5) c ∧
          |(13/5 : ℚ) - c| ≤ 60 / 60 * (1/2) ∧
          (∀ c', quantizeCandidate ⟨60, [0, 1], [0], 4⟩ (13/5) c' →
            |(13/5 : ℚ) - c| ≤ |(13/5 : ℚ) - c'|) ∧
          quantize ⟨60, [0, 1], [0], 4⟩ (13/5) (1/2) = c)
        ∨ (quantize ⟨60, [0, 1], [0], 4⟩ (13/5) (1/2) = 13/5 ∧
            ∀ c', quantizeCandidate ⟨60, [0, 1], [0], 4⟩ (13/5) c' →
              60 / 60 * (1/2) < |(13/5 : ℚ) - c'|)) :=
  ⟨⟨by decide, by decide, by norm_num⟩,
    C6_quantize_snaps_to_nearest_beat ⟨60, [0, 1], [0], 4⟩ (13/5) (1/2)
      (by decide) (by decide) (by norm_num)⟩

/-! ## BeatDetector (src/audio/BeatDetector.ts) -/

/-- `BeatDetectorConfig`. -/
structure BeatDetectorConfig where
  minTempo : ℚ
  maxTempo : ℚ
  beatThreshold : ℚ
  historySize : ℕ
  minBeatInterval : ℚ
  beatsPerBar : ℕ
  deriving Repr, DecidableEq

/-- The constructor defaults of `BeatDetector`. -/
def defaultBDConfig : BeatDetectorConfig :=
  { minTempo := 60, maxTempo := 200, beatThreshold := 13/10, historySize := 43,
    minBeatInterval := 200, beatsPerBar := 4 }

/-- Per-frame result of `BeatDetector.detectBeat`. -/
structure BeatInfo where
  isBeat : Bool
  isDownbeat : Bool
  tempo : ℚ
  beatPhase : ℚ
  beatNumber : ℕ
  deriving Repr, DecidableEq

/-- `BeatDetector` private state. -/
structure BDState where
  config : BeatDetectorConfig
  energyHistory : List ℚ
  beatTimes : List ℚ
  lastBeatTime : ℚ
  beatNumber : ℕ
  currentTempo : ℚ
  beatInterval : ℚ
  lastFrameTime : ℚ
  phaseAccumulator : ℚ
  deriving Repr, DecidableEq

/-- Fresh `BeatDetector` state (constructor). -/
def initBD (cfg : BeatDetectorConfig) : BDState :=
  { config := cfg, energyHistory := [], beatTimes := [], lastBeatTime := 0, beatNumber := 0,
    currentTempo := 120, beatInterval := 60000 / 120, lastFrameTime := 0,
    phaseAccumulator := 0 }

/-- `BeatDetector.registerBeat`. -/
def registerBeat (s : BDState) (timestamp : ℚ) : BDState :=
  let s1 : BDState :=
    { s with
      lastBeatTime := timestamp
      beatTimes := s.beatTimes ++ [timestamp]
      beatNumber := s.beatNumber + 1
      phaseAccumulator := 0 }
  if s1.beatTimes.length > 32 then { s1 with beatTimes := s1.beatTimes.tail } else s1

/-- Keys of a JS `Map` in insertion order: first occurrences, in list order. -/
def firstOccurrences (l : List ℚ) : List ℚ :=
  l.foldl (fun acc q => if q ∈ acc then acc else acc ++ [q]) []

/-- `BeatDetector.updateTempo`: modal 10ms-quantized inter-beat interval,
blended 90/10 into the current tempo when the implied BPM is in range. -/
def updateTempo (s : BDState) : BDState :=
  if s.beatTimes.length < 4 then s
  else
    let intervals := s.beatTimes.tail.zipWith (fun b a => b - a) s.beatTimes
    let quantized := intervals.map (fun iv => ((jsRound (iv / 10) * 10 : ℤ) : ℚ))
    let mode := (firstOccurrences quantized).foldl
      (fun best q => if quantized.count q > best.2 then (q, quantized.count q) else best)
      (s.beatInterval, 0)
    let bpm := 60000 / mode.1
    if s.config.minTempo ≤ bpm ∧ bpm ≤ s.config.maxTempo then
      let ct := s.currentTempo * (9/10) + bpm * (1/10)
      { s with currentTempo := ct, beatInterval := 60000 / ct }
    else s

/-- The phase-accumulator wrap of `detectBeat`:
`if (acc >= 1) acc -= Math.floor(acc)`. -/
def phaseWrap (acc : ℚ) : ℚ := if acc ≥ 1 then acc - ⌊acc⌋ else acc

/-- The state-advancing tail of `detectBeat`, after the energy history and the
beat decision have been computed: optional beat registration, tempo update,
phase advance and wrap, downbeat check, and frame bookkeeping. -/
def detectBeatAux (s : BDState) (hist : List ℚ) (isBeat : Bool) (timestamp : ℚ) :
    BeatInfo × BDState :=
  let s3 := updateTempo (if isBeat then registerBeat { s with energyHistory := hist } timestamp
                         else { s with energyHistory := hist })
  let acc := phaseWrap (s3.phaseAccumulator + (timestamp - s3.lastFrameTime) / s3.beatInterval)
  ({ isBeat := isBeat,
     isDownbeat := isBeat && (s3.beatNumber % s3.config.beatsPerBar == 0),
     tempo := s3.currentTempo, beatPhase := acc, beatNumber := s3.beatNumber },
   { s3 with phaseAccumulator := acc, lastFrameTime := timestamp })

/-- `BeatDetector.detectBeat`. -/
def detectBeat (s : BDState) (energy spectralFlux timestamp : ℚ) : BeatInfo × BDState :=
  let hist := s.energyHistory ++ [energy]
  let hist := if hist.length > s.config.historySize then hist.tail else hist
  let avgEnergy := hist.foldl (· + ·) 0 / (hist.length : ℚ)
  let energyRatio := energy / (avgEnergy + 1/10000)
  let combinedOnset := energyRatio * (7/10) + spectralFlux * (3/10)
  let timeSinceLastBeat := timestamp - s.lastBeatTime
  let isBeat := decide (combinedOnset > s.config.beatThreshold) &&
    decide (timeSinceLastBeat > s.config.minBeatInterval) && decide (hist.length ≥ 10)
  detectBeatAux s hist isBeat timestamp

/-- Run `detectBeat` over a list of `(energy, flux, timestamp)` frames. -/
def runDetect (s : BDState) : List (ℚ × ℚ × ℚ) → List BeatInfo × BDState
  | [] => ([], s)
  | (e, f, ts) :: rest =>
      let (info, s') := detectBeat s e f ts
      let (out, s'') := runDetect s' rest
      (info :: out, s'')

/-- `updateTempo` only ever rescales `currentTempo`/`beatInterval`, and keeps
them positive when the configured minimum tempo is positive. -/
lemma updateTempo_spec (s : BDState) (hct : 0 < s.currentTempo)
    (hbi : 0 < s.beatInterval) (hmin : 0 < s.config.minTempo) :
    ∃ ct bi, updateTempo s = { s with currentTempo := ct, beatInterval := bi } ∧
      0 < ct ∧ 0 < bi := by
  unfold updateTempo
  by_cases h1 : s.beatTimes.length < 4
  · exact ⟨s.currentTempo, s.beatInterval, by simp [h1], hct, hbi⟩
  · simp only [h1, if_false]
    set mode := (firstOccurrences ((s.beatTimes.tail.zipWith (fun b a => b - a) s.beatTimes).map
        (fun iv => ((jsRound (iv / 10) * 10 : ℤ) : ℚ)))).foldl
      (fun best q => if ((s.beatTimes.tail.zipWith (fun b a => b - a) s.beatTimes).map
          (fun iv => ((jsRound (iv / 10) * 10 : ℤ) : ℚ))).count q > best.2
        then (q, ((s.beatTimes.tail.zipWith (fun b a => b - a) s.beatTimes).map
          (fun iv => ((jsRound (iv / 10) * 10 : ℤ) : ℚ))).count q) else best)
      (s.beatInterval, 0) with hmode
    by_cases h2 : s.config.minTempo ≤ 60000 / mode.1 ∧ 60000 / mode.1 ≤ s.config.maxTempo
    · have hbpm : 0 < 60000 / mode.1 := lt_of_lt_of_le hmin h2.1
      have hctpos : 0 < s.currentTempo * (9/10) + (60000 / mode.1) * (1/10) := by positivity
      refine ⟨s.currentTempo * (9/10) + (60000 / mode.1) * (1/10),
        60000 / (s.currentTempo * (9/10) + (60000 / mode.1) * (1/10)),
        by simp [h2], hctpos, by positivity⟩
    · exact ⟨s.currentTempo, s.beatInterval, by simp [h2], hct, hbi⟩

/-- `registerBeat` touches only `lastBeatTime`, `beatTimes`, `beatNumber`
(incremented) and `phaseAccumulator` (reset to 0). -/
lemma registerBeat_fields (s : BDState) (ts : ℚ) :
    (registerBeat s ts).currentTempo = s.currentTempo ∧
    (registerBeat s ts).beatInterval = s.beatInterval ∧
    (registerBeat s ts).lastFrameTime = s.lastFrameTime ∧
    (registerBeat s ts).phaseAccumulator = 0 ∧
    (registerBeat s ts).beatNumber = s.beatNumber + 1 ∧
    (registerBeat s ts).config = s.config := by
  simp only [registerBeat]
  split <;> simp

/-- The wrapped phase accumulator lands in `[0, 1)` from any non-negative
pre-wrap value. -/
lemma phaseWrap_mem (acc : ℚ) (h : 0 ≤ acc) : 0 ≤ phaseWrap acc ∧ phaseWrap acc < 1 := by
  unfold phaseWrap
  by_cases h1 : acc ≥ 1
  · simp only [h1, if_true]
    have heq : acc - ⌊acc⌋ = Int.fract acc := rfl
    rw [heq]
    exact ⟨Int.fract_nonneg acc, Int.fract_lt_one acc⟩
  · simp only [h1, if_false]
    exact ⟨h, not_le.mp h1⟩

/-- Single-call contract of `detectBeatAux`: the returned phase is in `[0,1)`,
the beat number increments exactly on a detected beat, and the state keeps the
invariants (positive tempo and beat interval, non-negative accumulator). -/
lemma detectBeatAux_spec (s : BDState) (hist : List ℚ) (ib : Bool) (ts : ℚ)
    (hct : 0 < s.currentTempo) (hbi : 0 < s.beatInterval)
    (hacc : 0 ≤ s.phaseAccumulator) (hts : s.lastFrameTime ≤ ts)
    (hmin : 0 < s.config.minTempo) :
    (0 ≤ (detectBeatAux s hist ib ts).1.beatPhase ∧
      (detectBeatAux s hist ib ts).1.beatPhase < 1) ∧
    (detectBeatAux s hist ib ts).1.isBeat = ib ∧
    (detectBeatAux s hist ib ts).1.beatNumber =
      s.beatNumber + (if (detectBeatAux s hist ib ts).1.isBeat then 1 else 0) ∧
    (detectBeatAux s hist ib ts).2.beatNumber = (detectBeatAux s hist ib ts).1.beatNumber ∧
    0 < (detectBeatAux s hist ib ts).2.currentTempo ∧
    0 < (detectBeatAux s hist ib ts).2.beatInterval ∧
    0 ≤ (detectBeatAux s hist ib ts).2.phaseAccumulator ∧
    (detectBeatAux s hist ib ts).2.lastFrameTime = ts ∧
    (detectBeatAux s hist ib ts).2.config = s.config := by
  set s2 : BDState := if ib then registerBeat { s with energyHistory := hist } ts
    else { s with energyHistory := hist } with hs2
  have h2ct : s2.currentTempo = s.currentTempo := by
    cases ib <;> simp [hs2, (registerBeat_fields { s with energyHistory := hist } ts).1]
  have h2bi : s2.beatInterval = s.beatInterval := by
    cases ib <;> simp [hs2, (registerBeat_fields { s with energyHistory := hist } ts).2.1]
  have h2lft : s2.lastFrameTime = s.lastFrameTime := by
    cases ib <;> simp [hs2, (registerBeat_fields { s with energyHistory := hist } ts).2.2.1]
  have h2pa : 0 ≤ s2.phaseAccumulator := by
    cases ib
    · simpa [hs2] using hacc
    · simp [hs2, (registerBeat_fields { s with energyHistory := hist } ts).2.2.2.1]
  have h2bn : s2.beatNumber = s.beatNumber + (if ib then 1 else 0) := by
    cases ib
    · simp [hs2]
    · simp [hs2, (registerBeat_fields { s with energyHistory := hist } ts).2.2.2.2.1]
  have h2cfg : s2.config = s.config := by
    cases ib <;> simp [hs2, (registerBeat_fields { s with energyHistory := hist } ts).2.2.2.2.2]
  obtain ⟨ct, bi, hupd, hctpos, hbipos⟩ :=
    updateTempo_spec s2 (h2ct ▸ hct) (h2bi ▸ hbi) (h2cfg ▸ hmin)
  have hacc0 : 0 ≤ s2.phaseAccumulator + (ts - s2.lastFrameTime) / bi := by
    have hΔ : 0 ≤ ts - s2.lastFrameTime := by rw [h2lft]; linarith
    have := div_nonneg hΔ (le_of_lt hbipos)
    linarith
  obtain ⟨hw0, hw1⟩ := phaseWrap_mem (s2.phaseAccumulator + (ts - s2.lastFrameTime) / bi) hacc0
  simp only [detectBeatAux, ← hs2, hupd]
  refine ⟨⟨hw0, hw1⟩, trivial, ?_, trivial, hctpos, hbipos, hw0, trivial, h2cfg⟩
  simpa using h2bn

/-- `detectBeat` inherits the single-call contract of `detectBeatAux`. -/
lemma detectBeat_spec (s : BDState) (e f ts : ℚ)
    (hct : 0 < s.currentTempo) (hbi : 0 < s.beatInterval)
    (hacc : 0 ≤ s.phaseAccumulator) (hts : s.lastFrameTime ≤ ts)
    (hmin : 0 < s.config.minTempo) :
    (0 ≤ (detectBeat s e f ts).1.beatPhase ∧ (detectBeat s e f ts).1.beatPhase < 1) ∧
    (detectBeat s e f ts).1.beatNumber =
      s.beatNumber + (if (detectBeat s e f ts).1.isBeat then 1 else 0) ∧
    (detectBeat s e f ts).2.beatNumber = (detectBeat s e f ts).1.beatNumber ∧
    0 < (detectBeat s e f ts).2.currentTempo ∧
    0 < (detectBeat s e f ts).2.beatInterval ∧
    0 ≤ (detectBeat s e f ts).2.phaseAccumulator ∧
    (detectBeat s e f ts).2.lastFrameTime = ts ∧
    (detectBeat s e f ts).2.config = s.config := by
  have h := detectBeatAux_spec s
    (if (s.energyHistory ++ [e]).length > s.config.historySize then
      (s.energyHistory ++ [e]).tail else s.energyHistory ++ [e])
    (decide (((e / ((if (s.energyHistory ++ [e]).length > s.config.historySize then
          (s.energyHistory ++ [e]).tail else s.energyHistory ++ [e]).foldl (· + ·) 0 /
          (((if (s.energyHistory ++ [e]).length > s.config.historySize then
          (s.energyHistory ++ [e]).tail else s.energyHistory ++ [e]).length : ℕ) : ℚ) +
          1/10000)) * (7/10) + f * (3/10)) > s.config.beatThreshold) &&
      decide ((ts - s.lastBeatTime) > s.config.minBeatInterval) &&
      decide ((if (s.energyHistory ++ [e]).length > s.config.historySize then
        (s.energyHistory ++ [e]).tail else s.energyHistory ++ [e]).length ≥ 10))
    ts hct hbi hacc hts hmin
  exact ⟨h.1, h.2.2.1, h.2.2.2.1, h.2.2.2.2.1, h.2.2.2.2.2.1, h.2.2.2.2.2.2.1,
    h.2.2.2.2.2.2.2.1, h.2.2.2.2.2.2.2.2⟩

/-- Run-level invariant for C5: along any session with non-decreasing,
initially-larger-than-`lastFrameTime` timestamps, every emitted phase is in
`[0,1)` and the beat number increments exactly on detected beats. -/
lemma runDetect_inv :
    ∀ (frames : List (ℚ × ℚ × ℚ)) (s : BDState),
      0 < s.currentTempo → 0 < s.beatInterval → 0 ≤ s.phaseAccumulator →
      0 < s.config.minTempo →
      List.Chain (· ≤ ·) s.lastFrameTime (frames.map (fun fr => fr.2.2)) →
      (∀ info ∈ (runDetect s frames).1, 0 ≤ info.beatPhase ∧ info.beatPhase < 1) ∧
      List.Chain' (fun a b => b.beatNumber = a.beatNumber + if b.isBeat then 1 else 0)
        (runDetect s frames).1 ∧
      (∀ first ∈ (runDetect s frames).1.head?,
          first.beatNumber = s.beatNumber + if first.isBeat then 1 else 0) := by
  intro frames
  induction frames with
  | nil => intro s _ _ _ _ _; simp [runDetect]
  | cons fr rest ih =>
      obtain ⟨e, f, ts⟩ := fr
      intro s hct hbi hacc hmin hchain
      simp only [List.map_cons, List.chain_cons] at hchain
      obtain ⟨hts, hchain'⟩ := hchain
      obtain ⟨⟨hp0, hp1⟩, hbn, hsn, hct', hbi', hacc', hlft', hcfg'⟩ :=
        detectBeat_spec s e f ts hct hbi hacc hts hmin
      have hchain'' : List.Chain (· ≤ ·) (detectBeat s e f ts).2.lastFrameTime
          (rest.map (fun fr => fr.2.2)) := by rw [hlft']; exact hchain'
      obtain ⟨ihp, ihc, ihh⟩ := ih (detectBeat s e f ts).2 hct' hbi' hacc'
        (hcfg' ▸ hmin) hchain''
      have hrun : runDetect s ((e, f, ts) :: rest) =
          ((detectBeat s e f ts).1 :: (runDetect (detectBeat s e f ts).2 rest).1,
           (runDetect (detectBeat s e f ts).2 rest).2) := by
        simp [runDetect]
      rw [hrun]
      refine ⟨?_, ?_, ?_⟩
      · intro info hinfo
        rcases List.mem_cons.mp hinfo with h | h
        · rw [h]; exact ⟨hp0, hp1⟩
        · exact ihp info h
      · rw [List.chain'_cons']
        refine ⟨?_, ihc⟩
        intro b hb
        have := ihh b hb
        rw [this, hsn]
      · intro first hfirst
        simp only [List.head?_cons, Option.mem_def, Option.some.injEq] at hfirst
        rw [← hfirst]
        exact hbn

/-- **C5.** Over any `detectBeat` session (fresh detector, any configuration
with a positive minimum tempo) whose timestamps start at or after 0 and never
decrease, every returned `BeatInfo` has `beatPhase ∈ [0,1)`, and the returned
`beatNumber` increments exactly on detected beats (hence is non-decreasing),
starting from the initial counter 0. -/
theorem C5_beat_phase_in_unit_and_beat_number_monotone
    (cfg : BeatDetectorConfig) (hmin : 0 < cfg.minTempo)
    (frames : List (ℚ × ℚ × ℚ))
    (hts : List.Chain (· ≤ ·) 0 (frames.map (fun fr => fr.2.2))) :
    (∀ info ∈ (runDetect (initBD cfg) frames).1,
        0 ≤ info.beatPhase ∧ info.beatPhase < 1) ∧
    List.Chain' (fun a b => b.beatNumber = a.beatNumber + if b.isBeat then 1 else 0)
      (runDetect (initBD cfg) frames).1 ∧
    (∀ first ∈ (runDetect (initBD cfg) frames).1.head?,
        first.beatNumber = if first.isBeat then 1 else 0) := by
  obtain ⟨h1, h2, h3⟩ := runDetect_inv frames (initBD cfg)
    (by norm_num [initBD]) (by norm_num [initBD]) (by norm_num [initBD]) hmin
    (by simpa [initBD] using hts)
  refine ⟨h1, h2, ?_⟩
  intro first hfirst
  have := h3 first hfirst
  simpa [initBD] using this

/-- Witness for C5: the default configuration over two concrete frames with
timestamps 16 and 33 ms. -/
theorem C5_witness :
    ((0:ℚ) < defaultBDConfig.minTempo ∧
      List.Chain (· ≤ ·) 0 ([((1:ℚ), (0:ℚ), (16:ℚ)), (1, 0, 33)].map (fun fr => fr.2.2))) ∧
    ((∀ info ∈ (runDetect (initBD defaultBDConfig) [((1:ℚ), (0:ℚ), (16:ℚ)), (1, 0, 33)]).1,
        0 ≤ info.beatPhase ∧ info.beatPhase < 1) ∧
      List.Chain' (fun a b => b.beatNumber = a.beatNumber + if b.isBeat then 1 else 0)
        (runDetect (initBD defaultBDConfig) [((1:ℚ), (0:ℚ), (16:ℚ)), (1, 0, 33)]).1 ∧
      (∀ first ∈ (runDetect (initBD defaultBDConfig) [((1:ℚ), (0:ℚ), (16:ℚ)), (1, 0, 33)]).1.head?,
          first.beatNumber = if first.isBeat then 1 else 0)) :=
  ⟨⟨by norm_num [defaultBDConfig], by simp; norm_num⟩,
    C5_beat_phase_in_unit_and_beat_number_monotone defaultBDConfig
      (by norm_num [defaultBDConfig]) [((1:ℚ), (0:ℚ), (16:ℚ)), (1, 0, 33)] (by simp; norm_num)⟩

/-! ## ShowPlanner (src/mapping/ShowPlanner.ts) -/

/-- `SongSection`. -/
inductive SectionType
  | intro | verse | chorus | drop | breakdown | buildup | bridge | outro
  deriving Repr, DecidableEq

/-- One entry of `PreAnalysisResult.sections`. -/
structure AnalysisSection where
  start : ℚ
  end_ : ℚ
  type : SectionType
  energy : ℚ
  deriving Repr, DecidableEq

/-- `PreAnalysisResult`. -/
structure PreAnalysisResult where
  bpm : ℚ
  beats : List ℚ
  downbeats : List ℚ
  sections : List AnalysisSection
  averageEnergy : ℚ
  deriving Repr, DecidableEq

/-- `LightingLook`: a named colour/position template. -/
structure LightingLook where
  name : String
  baseColor : RGB
  accentColor : RGB
  movingHeadPositions : List (ℚ × ℚ)
  deriving Repr, DecidableEq

/-- `Scene.features`. -/
structure SceneFeatures where
  useFlakes : Bool
  flakeIntensity : ℚ
  useStrobes : Bool
  movingHeadPattern : String
  washPattern : String
  deriving Repr, DecidableEq

/-- Scene intensity bucket. -/
inductive Intensity
  | low | medium | high | extreme
  deriving Repr, DecidableEq

/-- `Scene`. -/
structure Scene where
  startTime : ℚ
  endTime : ℚ
  sectionType : SectionType
  look : LightingLook
  intensity : Intensity
  palette : List RGB
  features : SceneFeatures
  deriving Repr, DecidableEq

/-- `Transition` between adjacent scenes. -/
structure SceneTransition where
  fromSceneIndex : ℕ
  toSceneIndex : ℕ
  startTime : ℚ
  durationMs : ℚ
  type : String
  deriving Repr, DecidableEq

/-- `LightingTheme`. -/
structure LightingTheme where
  name : String
  primaryColors : List RGB
  accentColors : List RGB
  preferredLooks : List String
  deriving Repr, DecidableEq

/-- `ShowPlan`. -/
structure ShowPlan where
  scenes : List Scene
  transitions : List SceneTransition
  globalTheme : LightingTheme
  deriving Repr, DecidableEq

/-- The `PREDEFINED_LOOKS` table (total over the template names; the source
map contains exactly these eight keys). -/
def predefinedLooks : String → LightingLook
  | "deep-blue" =>
    { name := "Deep Blue", baseColor := ⟨1/10, 3/10, 9/10⟩, accentColor := ⟨3/10, 4/5, 1⟩,
      movingHeadPositions := [(3/10, 2/5), (7/10, 2/5), (2/5, 1/2), (3/5, 1/2)] }
  | "fire" =>
    { name := "Fire", baseColor := ⟨1, 1/5, 0⟩, accentColor := ⟨1, 3/5, 0⟩,
      movingHeadPositions := [(1/10, 3/5), (9/10, 3/5), (1/5, 7/10), (4/5, 7/10)] }
  | "rave" =>
    { name := "Rave", baseColor := ⟨1, 0, 1⟩, accentColor := ⟨0, 1, 0⟩,
      movingHeadPositions := [(0, 4/5), (1, 4/5), (1/4, 3/5), (3/4, 3/5), (1/2, 9/10)] }
  | "ethereal" =>
    { name := "Ethereal", baseColor := ⟨9/10, 9/10, 1⟩, accentColor := ⟨7/10, 1/2, 1⟩,
      movingHeadPositions := [(7/20, 7/20), (13/20, 7/20), (2/5, 2/5), (3/5, 2/5)] }
  | "electric-teal" =>
    { name := "Electric Teal", baseColor := ⟨0, 4/5, 7/10⟩, accentColor := ⟨0, 1, 9/10⟩,
      movingHeadPositions := [(1/5, 1/2), (4/5, 1/2), (3/10, 3/5), (7/10, 3/5)] }
  | "sunset" =>
    { name := "Sunset", baseColor := ⟨1, 2/5, 1/5⟩, accentColor := ⟨1, 7/10, 3/10⟩,
      movingHeadPositions := [(1/4, 9/20), (3/4, 9/20), (2/5, 11/20), (3/5, 11/20)] }
  | "purple-haze" =>
    { name := "Purple Haze", baseColor := ⟨3/5, 1/5, 9/10⟩, accentColor := ⟨4/5, 2/5, 1⟩,
      movingHeadPositions := [(3/10, 2/5), (7/10, 2/5), (1/2, 1/2)] }
  | _ =>
    { name := "Minimal", baseColor := ⟨4/5, 4/5, 9/10⟩, accentColor := ⟨1, 1, 1⟩,
      movingHeadPositions := [(1/2, 3/10), (1/2, 3/10)] }

/-- `SECTION_LOOK_TEMPLATES`. -/
def sectionLookTemplates : SectionType → List String
  | .intro => ["deep-blue", "minimal", "ethereal", "purple-haze"]
  | .verse => ["deep-blue", "minimal", "electric-teal", "sunset"]
  | .chorus => ["fire", "rave", "electric-teal", "sunset"]
  | .drop => ["fire", "rave", "ethereal"]
  | .breakdown => ["minimal", "deep-blue", "ethereal"]
  | .buildup => ["electric-teal", "purple-haze", "sunset"]
  | .bridge => ["minimal", "purple-haze", "deep-blue"]
  | .outro => ["minimal", "ethereal", "deep-blue"]

/-- Clamp to `[0, 1]` (`Math.max(0, Math.min(1, x))`). -/
def clamp01 (x : ℚ) : ℚ := max 0 (min 1 x)

/-- `ShowPlanner.determineIntensity`. -/
def determineIntensity (sectionType : SectionType) (energy : ℚ) : Intensity :=
  let base : ℚ :=
    match sectionType with
    | .intro => 1/5 | .verse => 2/5 | .chorus => 3/4 | .drop => 1
    | .breakdown => 3/20 | .buildup => 3/5 | .bridge => 1/2 | .outro => 3/10
  let combined := base * (7/10) + energy * (3/10)
  if combined < 3/10 then .low
  else if combined < 3/5 then .medium
  else if combined < 17/20 then .high
  else .extreme

/-- `ShowPlanner.colorVariation`, with the three `Math.random()` draws
explicit. -/
def colorVariation (color : RGB) (amount r1 r2 r3 : ℚ) : RGB :=
  { r := clamp01 (color.r + (r1 - 1/2) * amount),
    g := clamp01 (color.g + (r2 - 1/2) * amount),
    b := clamp01 (color.b + (r3 - 1/2) * amount) }

/-- `ShowPlanner.generatePalette`: base, accent, two jitter variants, and the
RGB complement of the base colour.  Consumes six random draws. -/
def generatePalette (baseColor accentColor : RGB) (rng : ℕ → ℚ) (pos : ℕ) :
    List RGB × ℕ :=
  ([baseColor, accentColor,
    colorVariation baseColor (3/20) (rng pos) (rng (pos+1)) (rng (pos+2)),
    colorVariation accentColor (3/20) (rng (pos+3)) (rng (pos+4)) (rng (pos+5)),
    ⟨1 - baseColor.r, 1 - baseColor.g, 1 - baseColor.b⟩], pos + 6)

/-- `ShowPlanner.determineFeatures`. -/
def determineFeatures (sectionType : SectionType) (energy bpm : ℚ) : SceneFeatures :=
  let isFastTempo := bpm > 140
  match sectionType with
  | .intro =>
    { useFlakes := false, flakeIntensity := 0, useStrobes := false,
      movingHeadPattern := "slow", washPattern := "static" }
  | .verse =>
    { useFlakes := false, flakeIntensity := 0, useStrobes := false,
      movingHeadPattern := "slow", washPattern := "pulse" }
  | .chorus =>
    { useFlakes := true, flakeIntensity := 3/5, useStrobes := energy > 3/5,
      movingHeadPattern := if isFastTempo then "fast" else "medium", washPattern := "pulse" }
  | .drop =>
    { useFlakes := true, flakeIntensity := 1, useStrobes := true,
      movingHeadPattern := "fast", washPattern := "chase" }
  | .breakdown =>
    { useFlakes := false, flakeIntensity := 0, useStrobes := false,
      movingHeadPattern := "slow", washPattern := "static" }
  | .buildup =>
    { useFlakes := energy > 1/2, flakeIntensity := energy * (7/10), useStrobes := false,
      movingHeadPattern := "medium", washPattern := "pulse" }
  | .bridge =>
    { useFlakes := false, flakeIntensity := 0, useStrobes := false,
      movingHeadPattern := "slow", washPattern := "pulse" }
  | .outro =>
    { useFlakes := energy > 1/2, flakeIntensity := energy * (2/5), useStrobes := false,
      movingHeadPattern := "slow", washPattern := "static" }

/-- `ShowPlanner.createSceneFromSection`: one random draw picks the look, six
more feed the palette jitter. -/
def createSceneFromSection (rng : ℕ → ℚ) (pos : ℕ) (sec : AnalysisSection) (bpm : ℚ) :
    Scene × ℕ :=
  let lookTemplates := sectionLookTemplates sec.type
  let lookName := lookTemplates.getD (⌊rng pos * lookTemplates.length⌋).toNat "minimal"
  let look := predefinedLooks lookName
  let intensity := determineIntensity sec.type sec.energy
  let pal := generatePalette look.baseColor look.accentColor rng (pos + 1)
  let features := determineFeatures sec.type sec.energy bpm
  ({ startTime := sec.start, endTime := sec.end_, sectionType := sec.type, look := look,
     intensity := intensity, palette := pal.1, features := features }, pal.2)

/-- The per-section scene loop of `createPlan`. -/
def scenesFromSections (rng : ℕ → ℚ) (bpm : ℚ) :
    List AnalysisSection → ℕ → List Scene × ℕ
  | [], pos => ([], pos)
  | sec :: rest, pos =>
      let sp := createSceneFromSection rng pos sec bpm
      let rest' := scenesFromSections rng bpm rest sp.2
      (sp.1 :: rest'.1, rest'.2)

/-- `ShowPlanner.createTransition`: fixed decision table over adjacent scenes. -/
def createTransition (fromScene toScene : Scene) (fromIndex toIndex : ℕ) : SceneTransition :=
  let startTime := fromScene.endTime
  let td : String × ℚ :=
    if fromScene.sectionType = .breakdown ∧ toScene.sectionType = .drop then ("explosion", 100)
    else if fromScene.sectionType = .buildup then ("build", 300)
    else if toScene.sectionType = .breakdown then ("cut", 50)
    else if (fromScene.intensity = .low ∨ fromScene.intensity = .medium) ∧
        (toScene.intensity = .high ∨ toScene.intensity = .extreme) then ("build", 400)
    else if (fromScene.intensity = .high ∨ fromScene.intensity = .extreme) ∧
        (toScene.intensity = .low ∨ toScene.intensity = .medium) then ("fade", 800)
    else ("fade", 500)
  { fromSceneIndex := fromIndex, toSceneIndex := toIndex, startTime := startTime,
    durationMs := td.2, type := td.1 }

/-- The adjacent-scene transition loop of `createPlan`. -/
def transitionsBetween : List Scene → ℕ → List SceneTransition
  | s1 :: s2 :: rest, i => createTransition s1 s2 i (i + 1) :: transitionsBetween (s2 :: rest) (i + 1)
  | _, _ => []

/-- `ShowPlanner.selectGlobalTheme`. -/
def selectGlobalTheme (analysis : PreAnalysisResult) : LightingTheme :=
  if analysis.averageEnergy > 7/10 then
    { name := "High Energy",
      primaryColors := [⟨1, 0, 0⟩, ⟨1, 0, 1⟩, ⟨0, 1, 0⟩, ⟨1, 1/2, 0⟩],
      accentColors := [⟨1, 1, 1⟩, ⟨0, 1, 1⟩],
      preferredLooks := ["fire", "rave", "electric-teal"] }
  else if analysis.averageEnergy > 2/5 then
    { name := "Balanced",
      primaryColors := [⟨1/10, 3/10, 9/10⟩, ⟨3/5, 1/5, 9/10⟩, ⟨0, 4/5, 7/10⟩, ⟨1, 2/5, 1/5⟩],
      accentColors := [⟨9/10, 9/10, 1⟩, ⟨1, 7/10, 3/10⟩],
      preferredLooks := ["deep-blue", "electric-teal", "purple-haze", "sunset"] }
  else
    { name := "Atmospheric",
      primaryColors := [⟨1/10, 3/10, 9/10⟩, ⟨3/5, 1/5, 9/10⟩, ⟨4/5, 4/5, 9/10⟩],
      accentColors := [⟨3/10, 4/5, 1⟩, ⟨7/10, 1/2, 1⟩],
      preferredLooks := ["minimal", "ethereal", "deep-blue"] }

/-- `ShowPlanner.createPlan`. -/
def createPlan (rng : ℕ → ℚ) (analysis : PreAnalysisResult) : ShowPlan :=
  { scenes := (scenesFromSections rng analysis.bpm analysis.sections 0).1,
    transitions := transitionsBetween (scenesFromSections rng analysis.bpm analysis.sections 0).1 0,
    globalTheme := selectGlobalTheme analysis }

/-- `ShowPlanner.getSceneAt`: first scene whose `[startTime, endTime)` range
contains `time`, else the last scene when `time` is past the plan's end. -/
def getSceneAt (plan : Option ShowPlan) (time : ℚ) : Option Scene :=
  match plan with
  | none => none
  | some p =>
      match p.scenes.find? (fun sc => decide (time ≥ sc.startTime) && decide (time < sc.endTime)) with
      | some sc => some sc
      | none =>
          match p.scenes.getLast? with
          | some lastScene => if time ≥ lastScene.endTime then some lastScene else none
          | none => none

/-- Scene times and section types are copied verbatim from the sections, in
order, whatever the random draws. -/
lemma scenesFromSections_times (rng : ℕ → ℚ) (bpm : ℚ) :
    ∀ (secs : List AnalysisSection) (pos : ℕ),
      ((scenesFromSections rng bpm secs pos).1).map
          (fun s => (s.startTime, s.endTime, s.sectionType)) =
        secs.map (fun s => (s.start, s.end_, s.type)) := by
  intro secs
  induction secs with
  | nil => intro pos; simp [scenesFromSections]
  | cons sec rest ih =>
      intro pos
      simp [scenesFromSections, createSceneFromSection, ih]

/-- The concrete four-section analysis of C3. -/
def demoSections : List AnalysisSection :=
  [⟨0, 16, .intro, 3/10⟩, ⟨16, 48, .verse, 1/2⟩, ⟨48, 80, .chorus, 4/5⟩, ⟨80, 96, .drop, 19/20⟩]

/-- **C3.** `createPlan` produces one scene per section, in order (times and
section types copied from the sections), and contiguous sections yield
contiguous scenes (`scenes[i].endTime = scenes[i+1].startTime`); on the
concrete section list `[0,16,intro | 16,48,verse | 48,80,chorus | 80,96,drop]`
it produces exactly 4 scenes and `getSceneAt(32.5)` returns the verse scene
covering `[16,48)`, whatever the random draws. -/
theorem C3_showplan_scenes_contiguous
    (rng rng' : ℕ → ℚ) (analysis : PreAnalysisResult)
    (hcontig : List.Chain' (fun a b => a.end_ = b.start) analysis.sections)
    (bpm avgE : ℚ) (beats downbeats : List ℚ) :
    ((createPlan rng analysis).scenes.map (fun s => (s.startTime, s.endTime, s.sectionType)) =
        analysis.sections.map (fun s => (s.start, s.end_, s.type)) ∧
      List.Chain' (fun s t => s.endTime = t.startTime) (createPlan rng analysis).scenes) ∧
    ((createPlan rng' ⟨bpm, beats, downbeats, demoSections, avgE⟩).scenes.length = 4 ∧
      ∃ sc, getSceneAt (some (createPlan rng' ⟨bpm, beats, downbeats, demoSections, avgE⟩))
          (65/2) = some sc ∧
        sc.sectionType = .verse ∧ sc.startTime = 16 ∧ sc.endTime = 48) := by
  have hmap := scenesFromSections_times rng analysis.bpm analysis.sections 0
  constructor
  · refine ⟨hmap, ?_⟩
    have h1 : List.Chain' (fun s t : Scene => s.endTime = t.startTime)
        (createPlan rng analysis).scenes ↔
        List.Chain' (fun a b : ℚ × ℚ × SectionType => a.2.1 = b.1)
          ((createPlan rng analysis).scenes.map
            (fun s => (s.startTime, s.endTime, s.sectionType))) := by
      rw [List.chain'_map]
    have h2 : List.Chain' (fun a b : ℚ × ℚ × SectionType => a.2.1 = b.1)
        (analysis.sections.map (fun s => (s.start, s.end_, s.type))) := by
      rw [List.chain'_map]
      exact hcontig
    rw [h1]
    have : ((createPlan rng analysis).scenes.map
        (fun s => (s.startTime, s.endTime, s.sectionType))) =
        analysis.sections.map (fun s => (s.start, s.end_, s.type)) := hmap
    rw [this]
    exact h2
  · constructor
    · simp [createPlan, demoSections, scenesFromSections]
    · simp only [createPlan, demoSections, scenesFromSections, createSceneFromSection,
        getSceneAt]
      rw [List.find?_cons_of_neg _ (by norm_num), List.find?_cons_of_pos _ (by norm_num)]
      exact ⟨_, rfl, rfl, rfl, rfl⟩

/-- Witness for C3: the concrete four-section analysis (which is contiguous)
with a constant-zero random stream. -/
theorem C3_witness :
    List.Chain' (fun a b => a.end_ = b.start) demoSections ∧
    (((createPlan (fun _ => 0) ⟨120, [], [], demoSections, 1/2⟩).scenes.map
          (fun s => (s.startTime, s.endTime, s.sectionType)) =
        demoSections.map (fun s => (s.start, s.end_, s.type)) ∧
      List.Chain' (fun s t => s.endTime = t.startTime)
        (createPlan (fun _ => 0) ⟨120, [], [], demoSections, 1/2⟩).scenes) ∧
    ((createPlan (fun _ => 0) ⟨120, [], [], demoSections, 1/2⟩).scenes.length = 4 ∧
      ∃ sc, getSceneAt (some (createPlan (fun _ => 0) ⟨120, [], [], demoSections, 1/2⟩))
          (65/2) = some sc ∧
        sc.sectionType = .verse ∧ sc.startTime = 16 ∧ sc.endTime = 48)) :=
  ⟨by norm_num [demoSections, List.chain'_cons],
    C3_showplan_scenes_contiguous (fun _ => 0) (fun _ => 0) ⟨120, [], [], demoSections, 1/2⟩
      (by norm_num [demoSections, List.chain'_cons]) 120 (1/2) [] []⟩

/-! ## Shared types (src/shared/types.ts) -/

/-- `AudioFrame`: one tick of analyzed audio. -/
structure AudioFrame where
  timestamp : ℚ
  isBeat : Bool
  isDownbeat : Bool
  tempo : ℚ
  beatPhase : ℚ
  beatNumber : ℕ
  rms : ℚ
  energy : ℚ
  peak : ℚ
  spectralCentroid : ℚ
  spectralFlux : ℚ
  lowEnergy : ℚ
  midEnergy : ℚ
  highEnergy : ℚ
  section_ : Option SectionType
  sectionConfidence : Option ℚ
  deriving Repr, DecidableEq

/-- A frequency band selector. -/
inductive FreqBand
  | low | mid | high
  deriving Repr, DecidableEq

/-- `number | 'random'` movement parameter. -/
inductive NumOrRandom
  | num (val : ℚ) | random
  deriving Repr, DecidableEq

/-- `StyleAction.movement`. -/
structure MovementSpec where
  pan : Option NumOrRandom
  tilt : Option NumOrRandom
  speed : Option ℚ
  deriving Repr, DecidableEq

/-- `RGB | 'random_from_palette'`. -/
inductive ColorSpec
  | rgb (c : RGB) | randomFromPalette
  deriving Repr, DecidableEq

/-- `number | 'from_energy'`. -/
inductive IntensitySpec
  | value (v : ℚ) | fromEnergy
  deriving Repr, DecidableEq

/-- `StyleAction`. -/
structure StyleAction where
  type : String
  targets : List String
  color : Option ColorSpec
  intensity : Option IntensitySpec
  movement : Option MovementSpec
  durationMs : ℚ
  deriving Repr, DecidableEq

/-- `StyleTrigger`: absent optional fields are `none`. -/
structure StyleTrigger where
  onBeat : Option Bool
  onDownbeat : Option Bool
  energyThreshold : Option ℚ
  fluxThreshold : Option ℚ
  sections : Option (List SectionType)
  frequencyBand : Option FreqBand
  customCondition : Option String
  deriving Repr, DecidableEq

/-- `StyleRule`. -/
structure StyleRule where
  id : String
  name : String
  trigger : StyleTrigger
  action : StyleAction
  probability : ℚ
  priority : ℚ
  deriving Repr, DecidableEq

/-- Fixture roster entry (id and type token). -/
structure Fixture where
  id : String
  type : String
  deriving Repr, DecidableEq

/-! ## RuleEvaluator (src/mapping/rules/RuleEvaluator.ts) -/

/-- `RuleEvaluator` private state: palette and the per-rule-id map of last
trigger times (a JS `Map`, modelled as an insertion-ordered assoc list). -/
structure RuleEvalState where
  palette : List RGB
  lastTriggerTimes : List (String × ℚ)
  deriving Repr, DecidableEq

/-- `this.lastTriggerTimes.get(rule.id) || 0`. -/
def getLastTrigger (m : List (String × ℚ)) (id : String) : ℚ :=
  ((m.find? (fun p => p.1 == id)).map Prod.snd).getD 0

/-- `this.lastTriggerTimes.set(rule.id, now)` (replace or append). -/
def setLastTrigger (m : List (String × ℚ)) (id : String) (t : ℚ) : List (String × ℚ) :=
  if m.any (fun p => p.1 == id) then m.map (fun p => if p.1 == id then (id, t) else p)
  else m ++ [(id, t)]

/-- `RuleEvaluator.getBandEnergy`. -/
def getBandEnergy (frame : AudioFrame) : FreqBand → ℚ
  | .low => frame.lowEnergy
  | .mid => frame.midEnergy
  | .high => frame.highEnergy

/-- The early-return chain of trigger checks in `evaluate` (true iff some
present check fails).  JS truthiness is kept: an empty section list and an
empty custom-condition string are falsy and therefore skipped. -/
def triggerFails (t : StyleTrigger) (frame : AudioFrame) : Bool :=
  t.onBeat.elim false (fun b => b != frame.isBeat) ||
  t.onDownbeat.elim false (fun b => b != frame.isDownbeat) ||
  t.energyThreshold.elim false (fun th => decide (frame.energy < th)) ||
  t.fluxThreshold.elim false (fun th => decide (frame.spectralFlux < th)) ||
  t.sections.elim false (fun secs =>
    decide (secs.length > 0) &&
      (match frame.section_ with
       | none => true
       | some s => !(secs.contains s))) ||
  t.frequencyBand.elim false (fun band => decide (getBandEnergy frame band < 1/2)) ||
  t.customCondition.elim false (fun c => c != "")

/-- `RuleEvaluator.evaluate`: all trigger checks must pass and the 50ms
per-rule-id rate limit must have elapsed; on success the trigger time map is
updated to `now`. -/
def evaluate (st : RuleEvalState) (rule : StyleRule) (frame : AudioFrame) (now : ℚ) :
    Bool × RuleEvalState :=
  if triggerFails rule.trigger frame then (false, st)
  else if now - getLastTrigger st.lastTriggerTimes rule.id < 50 then (false, st)
  else (true, { st with lastTriggerTimes := setLastTrigger st.lastTriggerTimes rule.id now })

lemma triggerFails_eq_false_iff (t : StyleTrigger) (frame : AudioFrame) :
    triggerFails t frame = false ↔
      ((∀ b ∈ t.onBeat, frame.isBeat = b) ∧
       (∀ b ∈ t.onDownbeat, frame.isDownbeat = b) ∧
       (∀ th ∈ t.energyThreshold, th ≤ frame.energy) ∧
       (∀ th ∈ t.fluxThreshold, th ≤ frame.spectralFlux) ∧
       (∀ secs ∈ t.sections, secs ≠ [] → ∃ s, frame.section_ = some s ∧ s ∈ secs) ∧
       (∀ band ∈ t.frequencyBand, 1/2 ≤ getBandEnergy frame band) ∧
       (∀ c ∈ t.customCondition, c = "")) := by
  unfold triggerFails
  simp only [Bool.or_eq_false_iff]
  constructor
  · rintro ⟨⟨⟨⟨⟨⟨h1, h2⟩, h3⟩, h4⟩, h5⟩, h6⟩, h7⟩
    refine ⟨?_, ?_, ?_, ?_, ?_, ?_, ?_⟩
    · intro b hb
      rw [Option.mem_def] at hb; rw [hb] at h1; simp at h1; exact h1.symm
    · intro b hb
      rw [Option.mem_def] at hb; rw [hb] at h2; simp at h2; exact h2.symm
    · intro th hth
      rw [Option.mem_def] at hth; rw [hth] at h3; simp [not_lt] at h3; exact h3
    · intro th hth
      rw [Option.mem_def] at hth; rw [hth] at h4; simp [not_lt] at h4; exact h4
    · intro secs hsecs hne
      rcases h : t.sections with _ | secs'
      · simp [h] at hsecs
      · rw [h] at hsecs h5
        obtain rfl : secs' = secs := by simpa using hsecs
        simp only [Option.elim_some, Bool.and_eq_false_iff, decide_eq_false_iff_not,
          not_lt, nonpos_iff_eq_zero, List.length_eq_zero] at h5
        rcases h5 with h5 | h5
        · exact absurd h5 hne
        · rcases hfs : frame.section_ with _ | s
          · rw [hfs] at h5; simp at h5
          · rw [hfs] at h5
            have h5' : s ∈ secs' := by simpa using h5
            exact ⟨s, rfl, h5'⟩
    · intro band hband
      rw [Option.mem_def] at hband; rw [hband] at h6; simp [not_lt] at h6; linarith
    · intro c hc
      rcases h : t.customCondition with _ | c'
      · simp [h] at hc
      · rw [h] at hc h7
        obtain rfl : c' = c := by simpa using hc
        simpa using h7
  · rintro ⟨h1, h2, h3, h4, h5, h6, h7⟩
    refine ⟨⟨⟨⟨⟨⟨?_, ?_⟩, ?_⟩, ?_⟩, ?_⟩, ?_⟩, ?_⟩
    · cases h : t.onBeat with
      | none => simp
      | some b => simp [h1 b h]
    · cases h : t.onDownbeat with
      | none => simp
      | some b => simp [h2 b h]
    · cases h : t.energyThreshold with
      | none => simp
      | some th => simp [not_lt.mpr (h3 th h)]
    · cases h : t.fluxThreshold with
      | none => simp
      | some th => simp [not_lt.mpr (h4 th h)]
    · cases h : t.sections with
      | none => simp
      | some secs =>
          rcases hs : secs with _ | ⟨a, l⟩
          · simp
          · obtain ⟨s, hfs, hmem⟩ := h5 secs h (by rw [hs]; simp)
            rw [← hs, hfs]
            simp [hmem]
    · cases h : t.frequencyBand with
      | none => simp
      | some band =>
          have := h6 band (by rw [h]; rfl)
          simp only [Option.elim_some, decide_eq_false_iff_not, not_lt]
          linarith
    · cases h : t.customCondition with
      | none => simp
      | some c => simp [h7 c h]

/-- **C7 (amended).** `evaluate` returns true iff every present trigger
predicate holds — `onBeat`/`onDownbeat` equality, energy/flux minimum,
section membership (skipped, not failed, when the present section list is
empty; failing when the frame has no section), the fixed `0.5` frequency-band
floor — the trigger has no non-empty custom condition (JS truthiness: an
empty-string condition is skipped, any other always fails), and at least 50ms
have elapsed since the same rule id last evaluated true.  `evaluate` is a
total function, so evaluation never raises. -/
theorem C7_rule_evaluate_iff (st : RuleEvalState) (rule : StyleRule)
    (frame : AudioFrame) (now : ℚ) :
    (evaluate st rule frame now).1 = true ↔
      ((∀ b ∈ rule.trigger.onBeat, frame.isBeat = b) ∧
       (∀ b ∈ rule.trigger.onDownbeat, frame.isDownbeat = b) ∧
       (∀ th ∈ rule.trigger.energyThreshold, th ≤ frame.energy) ∧
       (∀ th ∈ rule.trigger.fluxThreshold, th ≤ frame.spectralFlux) ∧
       (∀ secs ∈ rule.trigger.sections, secs ≠ [] →
          ∃ s, frame.section_ = some s ∧ s ∈ secs) ∧
       (∀ band ∈ rule.trigger.frequencyBand, 1/2 ≤ getBandEnergy frame band) ∧
       (∀ c ∈ rule.trigger.customCondition, c = "") ∧
       50 ≤ now - getLastTrigger st.lastTriggerTimes rule.id) := by
  constructor
  · intro h
    by_cases hf : triggerFails rule.trigger frame
    · simp [evaluate, hf] at h
    · by_cases hr : now - getLastTrigger st.lastTriggerTimes rule.id < 50
      · simp [evaluate, hf, hr] at h
      · obtain ⟨c1, c2, c3, c4, c5, c6, c7⟩ :=
          (triggerFails_eq_false_iff _ _).mp (Bool.eq_false_iff.mpr hf)
        exact ⟨c1, c2, c3, c4, c5, c6, c7, not_lt.mp hr⟩
  · rintro ⟨c1, c2, c3, c4, c5, c6, c7, hr⟩
    have hf : triggerFails rule.trigger frame = false :=
      (triggerFails_eq_false_iff _ _).mpr ⟨c1, c2, c3, c4, c5, c6, c7⟩
    have hr' : ¬(now - getLastTrigger st.lastTriggerTimes rule.id < 50) := not_lt.mpr hr
    simp [evaluate, hf, hr']

/-- Frame for the C7 counterexample: no section information. -/
def c7frame : AudioFrame :=
  { timestamp := 0, isBeat := false, isDownbeat := false, tempo := 120, beatPhase := 0,
    beatNumber := 0, rms := 0, energy := 0, peak := 0, spectralCentroid := 0,
    spectralFlux := 0, lowEnergy := 0, midEnergy := 0, highEnergy := 0,
    section_ := none, sectionConfidence := none }

/-- Rule for the C7 counterexample: a present-but-empty section list and a
present-but-empty custom condition. -/
def c7rule : StyleRule :=
  { id := "r1", name := "r1",
    trigger := { onBeat := none, onDownbeat := none, energyThreshold := none,
                 fluxThreshold := none, sections := some [], frequencyBand := none,
                 customCondition := some "" },
    action := { type := "all_on", targets := [], color := none, intensity := none,
                movement := none, durationMs := 100 },
    probability := 1, priority := 1 }

/-- Counterexample to C7 as stated: `evaluate` returns **true** for a trigger
that *does* carry a custom condition (the empty string, falsy in JS) and whose
present section list is not satisfied by the sectionless frame — the claim
says such an evaluation must return false. -/
theorem C7_counterexample :
    (evaluate ⟨[], []⟩ c7rule c7frame 100).1 = true ∧
    ¬(c7rule.trigger.customCondition = none) ∧
    ¬(∃ s, c7frame.section_ = some s ∧ s ∈ ([] : List SectionType)) := by
  refine ⟨?_, by simp [c7rule], by simp [c7frame]⟩
  norm_num [evaluate, triggerFails, getLastTrigger, c7rule, c7frame]

/-! ## Lighting commands and LightingVariations (src/mapping/LightingVariations.ts) -/

/-- Partial fixture-state update carried by a command. -/
structure FixtureUpdates where
  intensity : Option ℚ
  color : Option RGB
  pan : Option ℚ
  tilt : Option ℚ
  rate : Option ℚ
  speed : Option ℚ
  beamWidth : Option ℚ
  deriving Repr, DecidableEq

/-- The empty update. -/
def noUpdates : FixtureUpdates := ⟨none, none, none, none, none, none, none⟩

/-- `Partial<LightingCommand>` fragments returned by variation responders. -/
structure PartialCommand where
  targetId : Option String
  updates : FixtureUpdates
  transitionMs : Option ℚ
  easing : Option String
  deriving Repr, DecidableEq

/-- `LightingCommand`: the pipeline's output unit. -/
structure LightingCommand where
  targetId : String
  updates : FixtureUpdates
  transitionMs : ℚ
  easing : String
  deriving Repr, DecidableEq

/-- The `hue2rgb` helper of `hslToRgb`. -/
def hue2rgb (p q t : ℚ) : ℚ :=
  let t := if t < 0 then t + 1 else t
  let t := if t > 1 then t - 1 else t
  if t < 1/6 then p + (q - p) * 6 * t
  else if t < 1/2 then q
  else if t < 2/3 then p + (q - p) * (2/3 - t) * 6
  else p

/-- `hslToRgb` (identical helper in LightingVariations.ts and MappingEngine.ts). -/
def hslToRgb (h s l : ℚ) : RGB :=
  let h := clamp01 h
  let s := clamp01 s
  let l := clamp01 l
  if s = 0 then ⟨l, l, l⟩
  else
    let q := if l < 1/2 then l * (1 + s) else l + s - l * s
    let p := 2 * l - q
    ⟨hue2rgb p q (h + 1/3), hue2rgb p q h, hue2rgb p q (h - 1/3)⟩

/-- `LightingVariation`: name, selection weight, and responder.  The responder
takes the random stream and its position and returns fragments plus the new
position. -/
structure LightingVariation where
  name : String
  weight : ℚ
  respond : AudioFrame → Scene → (ℕ → ℚ) → ℕ → List PartialCommand × ℕ

/-- Scene intensity base used by several responders. -/
def sceneBaseIntensity (scene : Scene) : ℚ :=
  match scene.intensity with
  | .low => 3/10 | .medium => 3/5 | .high => 4/5 | .extreme => 1

/-- `BEAT_VARIATIONS`. -/
def beatVariations : List LightingVariation :=
  [{ name := "intensity-pulse", weight := 3,
     respond := fun _ scene _ pos =>
       let baseIntensity := sceneBaseIntensity scene
       ([{ targetId := some "all",
           updates := { noUpdates with intensity := some (min 1 (baseIntensity + 3/10)) },
           transitionMs := some 50, easing := some "easeOut" },
         { targetId := some "all",
           updates := { noUpdates with intensity := some baseIntensity },
           transitionMs := some 200, easing := some "easeIn" }], pos) },
   { name := "flash-all", weight := 3/2,
     respond := fun _ scene _ pos =>
       let color := scene.palette.headD ⟨1, 1, 1⟩
       ([{ targetId := some "all",
           updates := { noUpdates with intensity := some 1, color := some color },
           transitionMs := some 30, easing := some "snap" },
         { targetId := some "all",
           updates := { noUpdates with intensity := some (1/2) },
           transitionMs := some 150, easing := some "easeOut" }], pos) },
   { name := "color-shift", weight := 2,
     respond := fun _ scene rng pos =>
       let colorIndex := (⌊rng pos * scene.palette.length⌋).toNat
       ([{ targetId := some "wash",
           updates := { noUpdates with color := scene.palette.get? colorIndex },
           transitionMs := some 150, easing := some "easeInOut" }], pos + 1) },
   { name := "moving-head-snap", weight := 5/2,
     respond := fun _ scene rng pos =>
       let positions := scene.look.movingHeadPositions
       let posIndex := (⌊rng pos * positions.length⌋).toNat
       let p := positions.getD posIndex (0, 0)
       ([{ targetId := some "moving_head",
           updates := { noUpdates with
             pan := some (p.1 + (rng (pos+1) - 1/2) * (1/10)),
             tilt := some (p.2 + (rng (pos+2) - 1/2) * (1/10)) },
           transitionMs := some 100, easing := some "easeOut" }], pos + 3) },
   { name := "strobe-accent", weight := 1,
     respond := fun _ scene _ pos =>
       if !scene.features.useStrobes then ([], pos)
       else
         ([{ targetId := some "strobe",
             updates := { noUpdates with intensity := some 1, rate := some 10 },
             transitionMs := some 0, easing := some "snap" },
           { targetId := some "strobe",
             updates := { noUpdates with intensity := some 0 },
             transitionMs := some 0, easing := some "snap" }], pos) }]

/-- `ENERGY_VARIATIONS`. -/
def energyVariations : List LightingVariation :=
  [{ name := "brightness-scale", weight := 4,
     respond := fun frame scene _ pos =>
       let targetIntensity := sceneBaseIntensity scene * (1/2 + frame.energy * (1/2))
       ([{ targetId := some "all",
           updates := { noUpdates with intensity := some targetIntensity },
           transitionMs := some 200, easing := some "linear" }], pos) },
   { name := "beam-spread", weight := 5/2,
     respond := fun frame _ _ pos =>
       ([{ targetId := some "moving_head",
           updates := { noUpdates with beamWidth := some (1/10 + frame.energy * (3/5)) },
           transitionMs := some 300, easing := some "easeInOut" }], pos) },
   { name := "color-warmth", weight := 2,
     respond := fun frame _ _ pos =>
       let warmColor : RGB := ⟨4/5 + frame.energy * (1/5), 2/5 + frame.energy * (3/10), 1/10⟩
       let coolColor : RGB := ⟨1/5, 2/5 + frame.energy * (3/10), 4/5 + frame.energy * (1/5)⟩
       let color := if frame.energy > 1/2 then warmColor else coolColor
       ([{ targetId := some "wash",
           updates := { noUpdates with color := some color },
           transitionMs := some 400, easing := some "easeInOut" }], pos) },
   { name := "movement-speed", weight := 3,
     respond := fun frame _ _ pos =>
       ([{ targetId := some "moving_head",
           updates := { noUpdates with speed := some (1/5 + frame.energy * (3/5)) },
           transitionMs := some 500, easing := some "easeOut" }], pos) }]

/-- `SPECTRAL_VARIATIONS`. -/
def spectralVariations : List LightingVariation :=
  [{ name := "frequency-color-map", weight := 3,
     respond := fun frame _ _ pos =>
       let color := hslToRgb frame.spectralCentroid (4/5) (1/2)
       ([{ targetId := some "moving_head",
           updates := { noUpdates with color := some color },
           transitionMs := some 250, easing := some "linear" }], pos) },
   { name := "bass-intensity", weight := 5/2,
     respond := fun frame _ _ pos =>
       ([{ targetId := some "wash",
           updates := { noUpdates with intensity := some (frame.lowEnergy * (4/5)) },
           transitionMs := some 100, easing := some "linear" }], pos) },
   { name := "treble-movement", weight := 2,
     respond := fun frame scene _ pos =>
       let positions := scene.look.movingHeadPositions
       if positions.length = 0 then ([], pos)
       else
         let posIndex := (⌊frame.highEnergy * positions.length⌋).toNat
         let p := positions.getD (min posIndex (positions.length - 1)) (0, 0)
         ([{ targetId := some "moving_head",
             updates := { noUpdates with
               pan := some p.1, tilt := some (p.2 + frame.highEnergy * (1/5)) },
             transitionMs := some 200, easing := some "easeOut" }], pos) },
   { name := "spectral-flux-strobe", weight := 3/2,
     respond := fun frame scene _ pos =>
       if frame.spectralFlux < 3/5 ∨ !scene.features.useStrobes then ([], pos)
       else
         ([{ targetId := some "strobe",
             updates := { noUpdates with
               intensity := some frame.spectralFlux
               rate := some (5 + frame.spectralFlux * 15) },
             transitionMs := some 50, easing := some "snap" }], pos) }]

/-- `SECTION_VARIATIONS`. -/
def sectionVariations : List LightingVariation :=
  [{ name := "breakdown-minimal", weight := 5,
     respond := fun _ scene _ pos =>
       if scene.sectionType ≠ .breakdown then ([], pos)
       else
         ([{ targetId := some "strobe",
             updates := { noUpdates with intensity := some 0 },
             transitionMs := some 500, easing := some "easeOut" },
           { targetId := some "moving_head",
             updates := { noUpdates with intensity := some (1/5) },
             transitionMs := some 500, easing := some "easeOut" }], pos) },
   { name := "drop-explosion", weight := 5,
     respond := fun _ scene _ pos =>
       if scene.sectionType ≠ .drop then ([], pos)
       else
         ([{ targetId := some "all",
             updates := { noUpdates with intensity := some 1, color := some ⟨1, 1, 1⟩ },
             transitionMs := some 50, easing := some "snap" }], pos) },
   { name := "buildup-crescendo", weight := 5,
     respond := fun frame scene _ pos =>
       if scene.sectionType ≠ .buildup then ([], pos)
       else
         let progress := (frame.timestamp - scene.startTime) / (scene.endTime - scene.startTime)
         ([{ targetId := some "all",
             updates := { noUpdates with intensity := some (3/10 + progress * (7/10)) },
             transitionMs := some 300, easing := some "linear" }], pos) }]

/-- The cumulative-weight walk of `selectVariation`. -/
def selectLoop : List LightingVariation → ℚ → Option LightingVariation
  | [], _ => none
  | v :: rest, r => if r - v.weight ≤ 0 then some v else selectLoop rest (r - v.weight)

/-- `selectVariation`, with the `Math.random()` draw `r` explicit; `none`
only on an empty pool (where the JS code would crash on `undefined`). -/
def selectVariation (variations : List LightingVariation) (r : ℚ) :
    Option LightingVariation :=
  let totalWeight := (variations.map (fun v => v.weight)).sum
  match selectLoop variations (r * totalWeight) with
  | some v => some v
  | none => variations.getLast?

/-- `VariationSelector` private state. -/
structure VarSelState where
  lastBeatVariation : String
  lastEnergyVariation : String
  beatCounter : ℕ
  deriving Repr, DecidableEq

/-- Fresh/reset `VariationSelector` state. -/
def initVarSel : VarSelState := ⟨"", "", 0⟩

/-- `VariationSelector.getBeatResponse`: gated on beat frames, excludes the
previous beat pick, remembers the new pick.  Also returns the selected
variation for observation. -/
def getBeatResponse (st : VarSelState) (frame : AudioFrame) (scene : Scene)
    (rng : ℕ → ℚ) (pos : ℕ) :
    Option LightingVariation × List PartialCommand × VarSelState × ℕ :=
  if !frame.isBeat then (none, [], st, pos)
  else
    -- `beatCounter++` precedes the selection; it does not affect the filter
    let available := beatVariations.filter (fun v => v.name != st.lastBeatVariation)
    match selectVariation available (rng pos) with
    | none => (none, [], { st with beatCounter := st.beatCounter + 1 }, pos + 1)
    | some v =>
        let resp := v.respond frame scene rng (pos + 1)
        (some v, resp.1,
         { st with beatCounter := st.beatCounter + 1, lastBeatVariation := v.name }, resp.2)

/-- `VariationSelector.getEnergyResponse`: every other evaluation, excludes
the previous energy pick. -/
def getEnergyResponse (st : VarSelState) (frame : AudioFrame) (scene : Scene)
    (rng : ℕ → ℚ) (pos : ℕ) :
    Option LightingVariation × List PartialCommand × VarSelState × ℕ :=
  if st.beatCounter % 2 ≠ 0 then (none, [], st, pos)
  else
    let available := energyVariations.filter (fun v => v.name != st.lastEnergyVariation)
    match selectVariation available (rng pos) with
    | none => (none, [], st, pos + 1)
    | some v =>
        let resp := v.respond frame scene rng (pos + 1)
        (some v, resp.1, { st with lastEnergyVariation := v.name }, resp.2)

/-- `VariationSelector.getSpectralResponse`: gated on spectral flux, drawn
over the full pool with no exclusion, and stores nothing. -/
def getSpectralResponse (st : VarSelState) (frame : AudioFrame) (scene : Scene)
    (rng : ℕ → ℚ) (pos : ℕ) :
    Option LightingVariation × List PartialCommand × VarSelState × ℕ :=
  if frame.spectralFlux < 2/5 then (none, [], st, pos)
  else
    match selectVariation spectralVariations (rng pos) with
    | none => (none, [], st, pos + 1)
    | some v =>
        let resp := v.respond frame scene rng (pos + 1)
        (some v, resp.1, st, resp.2)

/-- `VariationSelector.getSectionResponse`: every 4th evaluation, drawn over
the full pool with no exclusion, and stores nothing. -/
def getSectionResponse (st : VarSelState) (frame : AudioFrame) (scene : Scene)
    (rng : ℕ → ℚ) (pos : ℕ) :
    Option LightingVariation × List PartialCommand × VarSelState × ℕ :=
  if st.beatCounter % 4 ≠ 0 then (none, [], st, pos)
  else
    match selectVariation sectionVariations (rng pos) with
    | none => (none, [], st, pos + 1)
    | some v =>
        let resp := v.respond frame scene rng (pos + 1)
        (some v, resp.1, st, resp.2)

lemma selectLoop_mem : ∀ (vs : List LightingVariation) (r : ℚ) (v : LightingVariation),
    selectLoop vs r = some v → v ∈ vs := by
  intro vs
  induction vs with
  | nil => intro r v h; simp [selectLoop] at h
  | cons w ws ih =>
      intro r v h
      unfold selectLoop at h
      by_cases hc : r - w.weight ≤ 0
      · rw [if_pos hc] at h
        injection h with h
        exact h ▸ List.mem_cons_self w ws
      · rw [if_neg hc] at h
        exact List.mem_cons_of_mem w (ih _ v h)

lemma selectVariation_mem (vs : List LightingVariation) (r : ℚ) (v : LightingVariation)
    (h : selectVariation vs r = some v) : v ∈ vs := by
  unfold selectVariation at h
  rcases hl : selectLoop vs (r * (vs.map (fun v => v.weight)).sum) with _ | w
  · simp only [hl] at h
    obtain ⟨hne, hv⟩ := List.mem_getLast?_eq_getLast (Option.mem_def.mpr h)
    exact hv ▸ List.getLast_mem hne
  · simp only [hl, Option.some.injEq] at h
    exact h ▸ selectLoop_mem _ _ _ hl

/-- A beat-pool selection never repeats the stored previous pick, stores the
new pick, and leaves the energy memory alone. -/
lemma getBeatResponse_spec (st : VarSelState) (frame : AudioFrame) (scene : Scene)
    (rng : ℕ → ℚ) (pos : ℕ) :
    (∀ v, (getBeatResponse st frame scene rng pos).1 = some v →
        v.name ≠ st.lastBeatVariation ∧
        (getBeatResponse st frame scene rng pos).2.2.1.lastBeatVariation = v.name) ∧
    ((getBeatResponse st frame scene rng pos).1 = none →
        (getBeatResponse st frame scene rng pos).2.2.1.lastBeatVariation =
          st.lastBeatVariation) ∧
    (getBeatResponse st frame scene rng pos).2.2.1.lastEnergyVariation =
      st.lastEnergyVariation := by
  unfold getBeatResponse
  by_cases hb : !frame.isBeat
  · simp [hb]
  · rw [if_neg hb]
    rcases hsel : selectVariation
        (List.filter (fun v => v.name != st.lastBeatVariation) beatVariations)
        (rng pos) with _ | v
    · simp [hsel]
    · have hmem := selectVariation_mem _ _ _ hsel
      rw [List.mem_filter] at hmem
      have hname : v.name ≠ st.lastBeatVariation := by
        have := hmem.2
        exact bne_iff_ne.mp this
      simp only [hsel]
      refine ⟨?_, ?_, ?_⟩
      · intro w hw
        simp only [Option.some.injEq] at hw
        exact ⟨hw ▸ hname, by simp [← hw]⟩
      · intro hcon; simp at hcon
      · simp

/-- An energy-pool selection never repeats the stored previous pick, stores
the new pick, and leaves the beat memory alone. -/
lemma getEnergyResponse_spec (st : VarSelState) (frame : AudioFrame) (scene : Scene)
    (rng : ℕ → ℚ) (pos : ℕ) :
    (∀ v, (getEnergyResponse st frame scene rng pos).1 = some v →
        v.name ≠ st.lastEnergyVariation ∧
        (getEnergyResponse st frame scene rng pos).2.2.1.lastEnergyVariation = v.name) ∧
    ((getEnergyResponse st frame scene rng pos).1 = none →
        (getEnergyResponse st frame scene rng pos).2.2.1.lastEnergyVariation =
          st.lastEnergyVariation) ∧
    (getEnergyResponse st frame scene rng pos).2.2.1.lastBeatVariation =
      st.lastBeatVariation := by
  unfold getEnergyResponse
  by_cases hb : st.beatCounter % 2 ≠ 0
  · simp [hb]
  · rw [if_neg hb]
    rcases hsel : selectVariation
        (List.filter (fun v => v.name != st.lastEnergyVariation) energyVariations)
        (rng pos) with _ | v
    · simp [hsel]
    · have hmem := selectVariation_mem _ _ _ hsel
      rw [List.mem_filter] at hmem
      have hname : v.name ≠ st.lastEnergyVariation := by
        have := hmem.2
        exact bne_iff_ne.mp this
      simp only [hsel]
      refine ⟨?_, ?_, ?_⟩
      · intro w hw
        simp only [Option.some.injEq] at hw
        exact ⟨hw ▸ hname, by simp [← hw]⟩
      · intro hcon; simp at hcon
      · simp

/-- Spectral and section calls do not touch the selector state at all. -/
lemma getSpectralResponse_state (st : VarSelState) (frame : AudioFrame) (scene : Scene)
    (rng : ℕ → ℚ) (pos : ℕ) :
    (getSpectralResponse st frame scene rng pos).2.2.1 = st := by
  unfold getSpectralResponse
  by_cases hb : frame.spectralFlux < 2/5
  · simp [hb]
  · rcases hsel : selectVariation spectralVariations (rng pos) with _ | v <;> simp [hb, hsel]

lemma getSectionResponse_state (st : VarSelState) (frame : AudioFrame) (scene : Scene)
    (rng : ℕ → ℚ) (pos : ℕ) :
    (getSectionResponse st frame scene rng pos).2.2.1 = st := by
  unfold getSectionResponse
  by_cases hb : st.beatCounter % 4 ≠ 0
  · simp [hb]
  · rcases hsel : selectVariation sectionVariations (rng pos) with _ | v <;> simp [hb, hsel]

/-- One call to the variation selector. -/
inductive VarCall
  | beat (frame : AudioFrame) (scene : Scene)
  | energy (frame : AudioFrame) (scene : Scene)
  | spectral (frame : AudioFrame) (scene : Scene)
  | sectionCall (frame : AudioFrame) (scene : Scene)

/-- Dispatch one call. -/
def stepVar (st : VarSelState) (rng : ℕ → ℚ) (pos : ℕ) :
    VarCall → Option LightingVariation × List PartialCommand × VarSelState × ℕ
  | .beat f sc => getBeatResponse st f sc rng pos
  | .energy f sc => getEnergyResponse st f sc rng pos
  | .spectral f sc => getSpectralResponse st f sc rng pos
  | .sectionCall f sc => getSectionResponse st f sc rng pos

/-- Run a sequence of selector calls, tracing the selected variation names. -/
def runVar (rng : ℕ → ℚ) : VarSelState → ℕ → List VarCall → List (Option String) × VarSelState
  | st, _, [] => ([], st)
  | st, pos, c :: cs =>
      let r := stepVar st rng pos c
      let rest := runVar rng r.2.2.1 r.2.2.2 cs
      ((r.1.map (fun v => v.name)) :: rest.1, rest.2)

/-- The names selected by beat-pool calls, in order. -/
def beatNames : List VarCall → List (Option String) → List String
  | [], _ => []
  | _, [] => []
  | .beat _ _ :: cs, some s :: tr => s :: beatNames cs tr
  | .beat _ _ :: cs, none :: tr => beatNames cs tr
  | _ :: cs, _ :: tr => beatNames cs tr

/-- The names selected by energy-pool calls, in order. -/
def energyNames : List VarCall → List (Option String) → List String
  | [], _ => []
  | _, [] => []
  | .energy _ _ :: cs, some s :: tr => s :: energyNames cs tr
  | .energy _ _ :: cs, none :: tr => energyNames cs tr
  | _ :: cs, _ :: tr => energyNames cs tr

lemma runVar_anti_repeat (rng : ℕ → ℚ) :
    ∀ (calls : List VarCall) (st : VarSelState) (pos : ℕ),
      List.Chain (fun a b => b ≠ a) st.lastBeatVariation
        (beatNames calls (runVar rng st pos calls).1) ∧
      List.Chain (fun a b => b ≠ a) st.lastEnergyVariation
        (energyNames calls (runVar rng st pos calls).1) := by
  intro calls
  induction calls with
  | nil => intro st pos; simp [runVar, beatNames, energyNames]
  | cons c cs ih =>
      intro st pos
      rcases c with ⟨f, sc⟩ | ⟨f, sc⟩ | ⟨f, sc⟩ | ⟨f, sc⟩
      · -- beat call
        obtain ⟨hsome, hnone, henergy⟩ := getBeatResponse_spec st f sc rng pos
        rcases hsel : (getBeatResponse st f sc rng pos).1 with _ | v
        · obtain ⟨ihb, ihe⟩ := ih (getBeatResponse st f sc rng pos).2.2.1
            (getBeatResponse st f sc rng pos).2.2.2
          constructor
          · simp only [runVar, stepVar, hsel, Option.map_none, beatNames]
            rw [← hnone hsel]
            exact ihb
          · simp only [runVar, stepVar, hsel, Option.map_none, energyNames]
            rw [← henergy]
            exact ihe
        · obtain ⟨hname, hstore⟩ := hsome v hsel
          obtain ⟨ihb, ihe⟩ := ih (getBeatResponse st f sc rng pos).2.2.1
            (getBeatResponse st f sc rng pos).2.2.2
          constructor
          · simp only [runVar, stepVar, hsel, Option.map_some, beatNames, List.chain_cons]
            exact ⟨hname, by rw [← hstore]; exact ihb⟩
          · simp only [runVar, stepVar, hsel, Option.map_some, energyNames]
            rw [← henergy]
            exact ihe
      · -- energy call
        obtain ⟨hsome, hnone, hbeat⟩ := getEnergyResponse_spec st f sc rng pos
        rcases hsel : (getEnergyResponse st f sc rng pos).1 with _ | v
        · obtain ⟨ihb, ihe⟩ := ih (getEnergyResponse st f sc rng pos).2.2.1
            (getEnergyResponse st f sc rng pos).2.2.2
          constructor
          · simp only [runVar, stepVar, hsel, Option.map_none, beatNames]
            rw [← hbeat]
            exact ihb
          · simp only [runVar, stepVar, hsel, Option.map_none, energyNames]
            rw [← hnone hsel]
            exact ihe
        · obtain ⟨hname, hstore⟩ := hsome v hsel
          obtain ⟨ihb, ihe⟩ := ih (getEnergyResponse st f sc rng pos).2.2.1
            (getEnergyResponse st f sc rng pos).2.2.2
          constructor
          · simp only [runVar, stepVar, hsel, Option.map_some, beatNames]
            rw [← hbeat]
            exact ihb
          · simp only [runVar, stepVar, hsel, Option.map_some, energyNames, List.chain_cons]
            exact ⟨hname, by rw [← hstore]; exact ihe⟩
      · -- spectral call: state untouched
        have hstate := getSpectralResponse_state st f sc rng pos
        obtain ⟨ihb, ihe⟩ := ih (getSpectralResponse st f sc rng pos).2.2.1
          (getSpectralResponse st f sc rng pos).2.2.2
        rcases hsel : (getSpectralResponse st f sc rng pos).1 with _ | v <;>
          exact ⟨by simp only [runVar, stepVar, hsel, Option.map_none, Option.map_some,
              beatNames, hstate]; rw [hstate] at ihb; exact ihb,
            by simp only [runVar, stepVar, hsel, Option.map_none, Option.map_some,
              energyNames, hstate]; rw [hstate] at ihe; exact ihe⟩
      · -- section call: state untouched
        have hstate := getSectionResponse_state st f sc rng pos
        obtain ⟨ihb, ihe⟩ := ih (getSectionResponse st f sc rng pos).2.2.1
          (getSectionResponse st f sc rng pos).2.2.2
        rcases hsel : (getSectionResponse st f sc rng pos).1 with _ | v <;>
          exact ⟨by simp only [runVar, stepVar, hsel, Option.map_none, Option.map_some,
              beatNames, hstate]; rw [hstate] at ihb; exact ihb,
            by simp only [runVar, stepVar, hsel, Option.map_none, Option.map_some,
              energyNames, hstate]; rw [hstate] at ihe; exact ihe⟩

/-- **C8 (amended).** Over any sequence of `VariationSelector` calls from the
reset state, the beat-pool selections never repeat between consecutive
selections, and neither do the energy-pool selections (each excludes that
pool's previous pick); the spectral and section pools draw over their full
lists with no exclusion (see the counterexample) and may repeat. -/
theorem C8_beat_energy_pools_never_repeat (rng : ℕ → ℚ) (calls : List VarCall) :
    List.Chain' (fun a b => a ≠ b)
      (beatNames calls (runVar rng initVarSel 0 calls).1) ∧
    List.Chain' (fun a b => a ≠ b)
      (energyNames calls (runVar rng initVarSel 0 calls).1) := by
  obtain ⟨hb, he⟩ := runVar_anti_repeat rng calls initVarSel 0
  constructor
  · exact List.Chain'.imp (fun a b h => h.symm)
      (List.Chain'.tail
        (show List.Chain' (fun a b : String => b ≠ a)
          ("" :: beatNames calls (runVar rng initVarSel 0 calls).1) from hb))
  · exact List.Chain'.imp (fun a b h => h.symm)
      (List.Chain'.tail
        (show List.Chain' (fun a b : String => b ≠ a)
          ("" :: energyNames calls (runVar rng initVarSel 0 calls).1) from he))

/-- Frame for the C8 counterexample: spectral flux above the 0.4 gate. -/
def c8frame : AudioFrame :=
  { timestamp := 0, isBeat := true, isDownbeat := false, tempo := 120, beatPhase := 0,
    beatNumber := 0, rms := 0, energy := 0, peak := 0, spectralCentroid := 0,
    spectralFlux := 1/2, lowEnergy := 0, midEnergy := 0, highEnergy := 0,
    section_ := none, sectionConfidence := none }

/-- Scene for the C8 counterexample. -/
def c8scene : Scene :=
  { startTime := 0, endTime := 16, sectionType := .verse, look := predefinedLooks "deep-blue",
    intensity := .medium, palette := [⟨1, 0, 0⟩],
    features := ⟨false, 0, false, "slow", "pulse"⟩ }

/-- Counterexample to C8 as stated: two **consecutive** spectral-pool
selections (random stream constantly 0) both pick `frequency-color-map` with
non-empty fragments — the spectral pool has no anti-repeat exclusion. -/
theorem C8_counterexample :
    ((getSpectralResponse initVarSel c8frame c8scene (fun _ => 0) 0).1.map
        (fun v => v.name) = some "frequency-color-map") ∧
    (getSpectralResponse initVarSel c8frame c8scene (fun _ => 0) 0).2.1 ≠ [] ∧
    (getSpectralResponse initVarSel c8frame c8scene (fun _ => 0) 0).2.2.1 = initVarSel ∧
    ((getSpectralResponse
        (getSpectralResponse initVarSel c8frame c8scene (fun _ => 0) 0).2.2.1
        c8frame c8scene (fun _ => 0)
        (getSpectralResponse initVarSel c8frame c8scene (fun _ => 0) 0).2.2.2).1.map
        (fun v => v.name) = some "frequency-color-map") ∧
    (getSpectralResponse
        (getSpectralResponse initVarSel c8frame c8scene (fun _ => 0) 0).2.2.1
        c8frame c8scene (fun _ => 0)
        (getSpectralResponse initVarSel c8frame c8scene (fun _ => 0) 0).2.2.2).2.1 ≠ [] := by
  norm_num [getSpectralResponse, selectVariation, selectLoop, spectralVariations,
    initVarSel, c8frame, c8scene]

/-! ## MappingEngine (src/mapping/MappingEngine.ts) -/

/-- `lerp` (the interpolation factor is clamped into `[0,1]`). -/
def lerp (a b t : ℚ) : ℚ := a + (b - a) * clamp01 t

/-- `easeIn`. -/
def easeIn (t : ℚ) : ℚ := t * t

/-- `easeOut`. -/
def easeOut (t : ℚ) : ℚ := t * (2 - t)

/-- `easeInOut`. -/
def easeInOut (t : ℚ) : ℚ := if t < 1/2 then 2 * t * t else -1 + (4 - 2 * t) * t

/-- `lerpColor`. -/
def lerpColor (a b : RGB) (t : ℚ) : RGB :=
  ⟨lerp a.r b.r t, lerp a.g b.g t, lerp a.b b.b t⟩

/-- `StyleProfile.palette`. -/
structure StylePalette where
  primary : List RGB
  accent : List RGB
  strobeColor : RGB
  deriving Repr, DecidableEq

/-- `StyleProfile` (the fields the engine consumes). -/
structure StyleProfile where
  name : String
  palette : StylePalette
  rules : List StyleRule
  deriving Repr, DecidableEq

/-- `MappingConfig`. -/
structure MappingConfig where
  styleProfile : Option StyleProfile
  intensityScale : ℚ
  reactivity : ℚ
  beatSync : Bool
  strobeMinInterval : ℚ
  deriving Repr, DecidableEq

/-- The 6-colour default palette of the engine (constructor and default map). -/
def defaultPalette6 : List RGB :=
  [⟨1, 0, 0⟩, ⟨0, 1/2, 1⟩, ⟨1, 1/2, 0⟩, ⟨1/2, 0, 1⟩, ⟨0, 1, 1/2⟩, ⟨1, 0, 1/2⟩]

/-- `MappingEngine` private state (engine fields plus the owned
`RuleEvaluator`, `ShowPlanner` plan and `VariationSelector` states). -/
structure EngineState where
  config : MappingConfig
  fixtures : List Fixture
  ruleEval : RuleEvalState
  lastFrame : Option AudioFrame
  commandHistory : List (ℚ × ℕ)
  lastStrobeTime : ℚ
  currentColorIndex : ℕ
  smoothedIntensity : ℚ
  smoothedPan : ℚ
  smoothedTilt : ℚ
  baseColor : RGB
  lastBeatNumber : ℕ
  currentPlan : Option ShowPlan
  plannerPlan : Option ShowPlan
  varSel : VarSelState

/-- The engine state produced by the `MappingEngine` constructor with no
configuration overrides. -/
def initEngine : EngineState :=
  { config := { styleProfile := none, intensityScale := 1, reactivity := 7/10,
                beatSync := true, strobeMinInterval := 100 },
    fixtures := [], ruleEval := ⟨defaultPalette6, []⟩, lastFrame := none,
    commandHistory := [], lastStrobeTime := 0, currentColorIndex := 0,
    smoothedIntensity := 0, smoothedPan := 1/2, smoothedTilt := 1/2,
    baseColor := ⟨0, 1/2, 1⟩, lastBeatNumber := 0, currentPlan := none,
    plannerPlan := none, varSel := initVarSel }

/-- `RuleEvaluator.resolveIntensity`. -/
def resolveIntensity (spec : Option IntensitySpec) (frame : AudioFrame) : ℚ :=
  match spec with
  | none => 4/5
  | some .fromEnergy => max (1/5) (min 1 frame.energy)
  | some (.value v) => max 0 (min 1 v)

/-- `RuleEvaluator.resolveColor`, with the random draw explicit.  An
out-of-range palette index falls back to white (the JS code would read
`undefined`). -/
def resolveColor (palette : List RGB) (colorSpec : Option ColorSpec) (rng : ℕ → ℚ)
    (pos : ℕ) : RGB × ℕ :=
  match colorSpec with
  | none => (⟨1, 1, 1⟩, pos)
  | some .randomFromPalette =>
      (palette.getD (⌊rng pos * palette.length⌋).toNat ⟨1, 1, 1⟩, pos + 1)
  | some (.rgb c) => (c, pos)

/-- `RuleEvaluator.resolveTargets`. -/
def resolveTargets (targets : List String) (fixtures : List Fixture) : List Fixture :=
  if targets = [] then fixtures
  else
    match targets.head? with
    | some firstTarget =>
        if ["moving_head", "strobe", "wash", "laser", "par"].contains firstTarget then
          fixtures.filter (fun f => targets.contains f.type)
        else fixtures.filter (fun f => targets.contains f.id)
    | none => fixtures

/-- `RuleEvaluator.executeStrobe`. -/
def executeStrobe (palette : List RGB) (action : StyleAction) (fixtures : List Fixture)
    (frame : AudioFrame) (rng : ℕ → ℚ) (pos : ℕ) : List LightingCommand × ℕ :=
  let rc := resolveColor palette action.color rng pos
  let intensity := resolveIntensity action.intensity frame
  (fixtures.map (fun fixture =>
    if fixture.type = "strobe" then
      { targetId := fixture.id,
        updates := { noUpdates with
          intensity := some intensity
          color := some rc.1
          rate := some (15 + frame.energy * 15) },
        transitionMs := 0, easing := "snap" }
    else
      { targetId := fixture.id,
        updates := { noUpdates with intensity := some intensity, color := some rc.1 },
        transitionMs := 0, easing := "snap" }), rc.2)

/-- `RuleEvaluator.executeColorChange`. -/
def executeColorChange (palette : List RGB) (action : StyleAction)
    (fixtures : List Fixture) (rng : ℕ → ℚ) (pos : ℕ) : List LightingCommand × ℕ :=
  let rc := resolveColor palette action.color rng pos
  (fixtures.map (fun fixture =>
    { targetId := fixture.id, updates := { noUpdates with color := some rc.1 },
      transitionMs := action.durationMs, easing := "easeInOut" }), rc.2)

/-- `RuleEvaluator.executeIntensityPulse` (the colour is resolved only when
the action carries one). -/
def executeIntensityPulse (palette : List RGB) (action : StyleAction)
    (fixtures : List Fixture) (frame : AudioFrame) (rng : ℕ → ℚ) (pos : ℕ) :
    List LightingCommand × ℕ :=
  let intensity := resolveIntensity action.intensity frame
  let rc : Option RGB × ℕ :=
    match action.color with
    | none => (none, pos)
    | some spec =>
        let c := resolveColor palette (some spec) rng pos
        (some c.1, c.2)
  (fixtures.map (fun fixture =>
    { targetId := fixture.id,
      updates := { noUpdates with intensity := some intensity, color := rc.1 },
      transitionMs := action.durationMs * (3/10), easing := "easeOut" }), rc.2)

/-- `RuleEvaluator.executeMovement` (a `'random'` pan/tilt consumes one draw
per moving head). -/
def executeMovement (action : StyleAction) (fixtures : List Fixture) (rng : ℕ → ℚ)
    (pos : ℕ) : List LightingCommand × ℕ :=
  match action.movement with
  | none => ([], pos)
  | some movement =>
      fixtures.foldl (fun acc fixture =>
        if fixture.type = "moving_head" then
          let panR : Option ℚ × ℕ :=
            match movement.pan with
            | none => (none, acc.2)
            | some .random => (some (rng acc.2), acc.2 + 1)
            | some (.num v) => (some v, acc.2)
          let tiltR : Option ℚ × ℕ :=
            match movement.tilt with
            | none => (none, panR.2)
            | some .random => (some (rng panR.2), panR.2 + 1)
            | some (.num v) => (some v, panR.2)
          let upd : FixtureUpdates := { noUpdates with
            pan := panR.1
            tilt := tiltR.1
            speed := movement.speed }
          let cmd : LightingCommand :=
            { targetId := fixture.id
              updates := upd
              transitionMs := action.durationMs
              easing := "easeInOut" }
          (acc.1 ++ [cmd], tiltR.2)
        else acc) ([], pos)

/-- `RuleEvaluator.executeBlackout`. -/
def executeBlackout (action : StyleAction) (fixtures : List Fixture) :
    List LightingCommand :=
  fixtures.map (fun fixture =>
    { targetId := fixture.id, updates := { noUpdates with intensity := some 0 },
      transitionMs := min action.durationMs 100, easing := "snap" })

/-- `RuleEvaluator.executeAllOn`.  JS `action.intensity || 1` replaces both an
absent spec and a literal `0` (falsy) by `1`. -/
def executeAllOn (palette : List RGB) (action : StyleAction) (fixtures : List Fixture)
    (frame : AudioFrame) (rng : ℕ → ℚ) (pos : ℕ) : List LightingCommand × ℕ :=
  let intensitySpec : IntensitySpec :=
    match action.intensity with
    | none => .value 1
    | some (.value v) => if v = 0 then .value 1 else .value v
    | some .fromEnergy => .fromEnergy
  let intensity := resolveIntensity (some intensitySpec) frame
  let rc := resolveColor palette (some (action.color.getD (.rgb ⟨1, 1, 1⟩))) rng pos
  (fixtures.map (fun fixture =>
    { targetId := fixture.id,
      updates := { noUpdates with intensity := some intensity, color := some rc.1 },
      transitionMs := action.durationMs, easing := "easeOut" }), rc.2)

/-- `RuleEvaluator.executeAction`. -/
def executeAction (palette : List RGB) (action : StyleAction) (frame : AudioFrame)
    (fixtures : List Fixture) (rng : ℕ → ℚ) (pos : ℕ) : List LightingCommand × ℕ :=
  let targetFixtures := resolveTargets action.targets fixtures
  match action.type with
  | "strobe" => executeStrobe palette action targetFixtures frame rng pos
  | "color_change" => executeColorChange palette action targetFixtures rng pos
  | "intensity_pulse" => executeIntensityPulse palette action targetFixtures frame rng pos
  | "movement" => executeMovement action targetFixtures rng pos
  | "blackout" => (executeBlackout action targetFixtures, pos)
  | "all_on" => executeAllOn palette action targetFixtures frame rng pos
  | _ => ([], pos)

/-- `MappingEngine.processStyleRules`: rules sorted by descending priority
(stable), each passing and probability-gated rule appends its action's
commands. -/
def processStyleRules (s : EngineState) (frame : AudioFrame) (now : ℚ) (rng : ℕ → ℚ)
    (pos : ℕ) : List LightingCommand × EngineState × ℕ :=
  match s.config.styleProfile with
  | none => ([], s, pos)
  | some profile =>
      let sortedRules := profile.rules.mergeSort (fun a b => b.priority ≤ a.priority)
      let step := sortedRules.foldl (fun acc rule =>
        let ev := evaluate acc.2.1 rule frame now
        if ev.1 then
          if rng acc.2.2 ≤ rule.probability then
            let ex := executeAction ev.2.palette rule.action frame s.fixtures rng (acc.2.2 + 1)
            (acc.1 ++ ex.1, ev.2, ex.2)
          else (acc.1, ev.2, acc.2.2 + 1)
        else (acc.1, ev.2, acc.2.2)) ([], s.ruleEval, pos)
      (step.1, { s with ruleEval := step.2.1 }, step.2.2)

/-- `MappingEngine.getSceneIntensity`. -/
def getSceneIntensity (scene : Scene) : ℚ :=
  match scene.intensity with
  | .low => 3/10 | .medium => 3/5 | .high => 17/20 | .extreme => 1

/-- `MappingEngine.applySceneBase`. -/
def applySceneBase (scene : Scene) (frame : AudioFrame) : List LightingCommand :=
  [{ targetId := "wash",
     updates := { noUpdates with
       color := some scene.look.baseColor
       intensity := some (getSceneIntensity scene) },
     transitionMs := 300, easing := "easeInOut" }]
  ++ (if scene.look.movingHeadPositions.length > 0 then
        let posIndex := frame.beatNumber % scene.look.movingHeadPositions.length
        let p := scene.look.movingHeadPositions.getD posIndex (0, 0)
        [{ targetId := "moving_head",
           updates := { noUpdates with
             color := some scene.look.accentColor
             pan := some p.1
             tilt := some p.2 },
           transitionMs := 500, easing := "easeInOut" }]
      else [])
  ++ (if !scene.features.useStrobes then
        [{ targetId := "strobe", updates := { noUpdates with intensity := some 0 },
           transitionMs := 200, easing := "easeOut" }]
      else [])

/-- `MappingEngine.convertPartialCommands`. -/
def convertPartialCommands (partials : List PartialCommand) : List LightingCommand :=
  partials.map (fun p =>
    { targetId := p.targetId.getD "all", updates := p.updates,
      transitionMs := p.transitionMs.getD 100, easing := p.easing.getD "linear" })

/-- `MappingEngine.applyVariations`: the four pools in order, threading the
selector state and random stream. -/
def applyVariations (varSel : VarSelState) (frame : AudioFrame) (scene : Scene)
    (rng : ℕ → ℚ) (pos : ℕ) : List LightingCommand × VarSelState × ℕ :=
  let b := getBeatResponse varSel frame scene rng pos
  let e := getEnergyResponse b.2.2.1 frame scene rng b.2.2.2
  let sp := getSpectralResponse e.2.2.1 frame scene rng e.2.2.2
  let se := getSectionResponse sp.2.2.1 frame scene rng sp.2.2.2
  (convertPartialCommands b.2.1 ++ convertPartialCommands e.2.1 ++
     convertPartialCommands sp.2.1 ++ convertPartialCommands se.2.1,
   se.2.2.1, se.2.2.2)

/-- `MappingEngine.processWithShowPlan` (the scene lookup goes through the
engine's own `ShowPlanner` instance). -/
def processWithShowPlan (s : EngineState) (frame : AudioFrame) (rng : ℕ → ℚ)
    (pos : ℕ) : List LightingCommand × EngineState × ℕ :=
  match getSceneAt s.plannerPlan (frame.timestamp / 1000) with
  | none => ([], s, pos)
  | some scene =>
      let base := applySceneBase scene frame
      let vars := applyVariations s.varSel frame scene rng pos
      (base ++ vars.1, { s with varSel := vars.2.1 }, vars.2.2)

/-- `MappingEngine.processDefaultMapping`.  `Math.sin` is passed in as an
opaque function, `Date.now()` as `now`; the command segments are emitted in
source push order. -/
def processDefaultMapping (sine : ℚ → ℚ) (s : EngineState) (frame : AudioFrame)
    (now : ℚ) : List LightingCommand × EngineState :=
  let smoothingFactor := s.config.reactivity
  -- 1. base intensity follows RMS with smoothing
  let smoothedIntensity := lerp s.smoothedIntensity (frame.rms * s.config.intensityScale)
    smoothingFactor
  -- 2. colour follows spectral centroid
  let newColor := hslToRgb (frame.spectralCentroid * (7/10)) (4/5) (1/2)
  let baseColor := lerpColor s.baseColor newColor (smoothingFactor * (1/2))
  -- 3. beat pulse (to full intensity, then back to the smoothed intensity)
  let beatCommands :=
    if frame.isBeat && s.config.beatSync then
      [{ targetId := "all",
         updates := { noUpdates with intensity := some 1, color := some baseColor },
         transitionMs := 50, easing := "easeOut" },
       { targetId := "all",
         updates := { noUpdates with intensity := some smoothedIntensity },
         transitionMs := 150, easing := "easeIn" }]
    else
      [{ targetId := "all",
         updates := { noUpdates with
           intensity := some smoothedIntensity
           color := some baseColor },
         transitionMs := 100, easing := "linear" }]
  -- 4./5. bass-driven tilt and energy-driven beam width on moving heads
  let smoothedTilt := lerp s.smoothedTilt (3/10 + frame.lowEnergy * (2/5))
    (smoothingFactor * (3/10))
  let beamWidth := frame.energy * (1/2) + 1/5
  let movingHeadCommands := (s.fixtures.filter (fun f => f.type = "moving_head")).map
    (fun fixture =>
      { targetId := fixture.id,
        updates := { noUpdates with tilt := some smoothedTilt, beamWidth := some beamWidth },
        transitionMs := 200, easing := "easeInOut" })
  -- 6. downbeat rotates the fixed 6-colour palette
  let currentColorIndex :=
    if frame.isDownbeat then (s.currentColorIndex + 1) % 6 else s.currentColorIndex
  let downbeatCommands :=
    if frame.isDownbeat then
      [{ targetId := "all",
         updates := { noUpdates with color := some (defaultPalette6.getD currentColorIndex ⟨0, 0, 0⟩) },
         transitionMs := 300, easing := "easeInOut" }]
    else []
  -- 7. strobe on high spectral flux, rate limited
  let strobeFires := frame.spectralFlux > 7/10 ∧
    now - s.lastStrobeTime > s.config.strobeMinInterval
  let strobeCommands :=
    if strobeFires then
      (s.fixtures.filter (fun f => f.type = "strobe")).map (fun fixture =>
        { targetId := fixture.id,
          updates := { noUpdates with
            intensity := some 1
            rate := some (10 + frame.spectralFlux * 20) },
          transitionMs := 0, easing := "snap" })
    else []
  let lastStrobeTime := if strobeFires then now else s.lastStrobeTime
  -- 8. section-driven pan patterns when the beat number changes
  let sectionFires := frame.section_.isSome ∧ frame.beatNumber ≠ s.lastBeatNumber
  let smoothedPan :=
    if sectionFires then
      match frame.section_ with
      | some .drop | some .chorus => 1/2 + sine ((frame.beatNumber : ℚ) * (1/2)) * (2/5)
      | some .buildup =>
          1/2 + sine ((frame.beatNumber : ℚ) * (1/5)) * (frame.energy * (3/10))
      | some .breakdown | some .verse =>
          1/2 + sine ((frame.beatNumber : ℚ) * (1/10)) * (1/5)
      | _ => lerp s.smoothedPan (1/2) (1/10)
    else s.smoothedPan
  let lastBeatNumber := if sectionFires then frame.beatNumber else s.lastBeatNumber
  let panCommands :=
    if sectionFires then
      (s.fixtures.filter (fun f => f.type = "moving_head")).map (fun fixture =>
        { targetId := fixture.id,
          updates := { noUpdates with
            pan := some smoothedPan
            speed := some (frame.energy * (1/2) + 1/5) },
          transitionMs := 500, easing := "easeInOut" })
    else []
  (beatCommands ++ movingHeadCommands ++ downbeatCommands ++ strobeCommands ++ panCommands,
   { s with
     smoothedIntensity := smoothedIntensity
     baseColor := baseColor
     smoothedTilt := smoothedTilt
     currentColorIndex := currentColorIndex
     lastStrobeTime := lastStrobeTime
     smoothedPan := smoothedPan
     lastBeatNumber := lastBeatNumber })

/-- `MappingEngine.process`: command-history bookkeeping, then the mutually
exclusive strategy dispatch (show plan, style rules, default heuristic). -/
def process (sine : ℚ → ℚ) (rng : ℕ → ℚ) (s : EngineState) (frame : AudioFrame)
    (now : ℚ) (pos : ℕ) : List LightingCommand × EngineState × ℕ :=
  let history := (s.commandHistory ++ [(now, 0)]).filter (fun h => now - h.1 < 1000)
  let s0 : EngineState := { s with commandHistory := history }
  let res : List LightingCommand × EngineState × ℕ :=
    match s0.currentPlan with
    | some _ => processWithShowPlan s0 frame rng pos
    | none =>
        match s0.config.styleProfile with
        | some _ => processStyleRules s0 frame now rng pos
        | none =>
            let r := processDefaultMapping sine s0 frame now
            (r.1, r.2, pos)
  (res.1,
   { res.2.1 with
     lastFrame := some frame
     commandHistory := res.2.1.commandHistory.dropLast ++ [(now, res.1.length)] },
   res.2.2)

/-- On a beat frame with beat sync on, the default mapping's command list
starts with the full-intensity pulse followed by the release to the newly
smoothed intensity. -/
lemma processDefaultMapping_beat_cmds (sine : ℚ → ℚ) (s : EngineState)
    (frame : AudioFrame) (now : ℚ)
    (hsync : s.config.beatSync = true) (hbeat : frame.isBeat = true) :
    ∃ rest, (processDefaultMapping sine s frame now).1 =
      { targetId := "all",
        updates := { noUpdates with
          intensity := some 1
          color := some (lerpColor s.baseColor
            (hslToRgb (frame.spectralCentroid * (7/10)) (4/5) (1/2))
            (s.config.reactivity * (1/2))) },
        transitionMs := 50, easing := "easeOut" } ::
      { targetId := "all",
        updates := { noUpdates with
          intensity :=
            some (lerp s.smoothedIntensity (frame.rms * s.config.intensityScale)
              s.config.reactivity) },
        transitionMs := 150, easing := "easeIn" } :: rest := by
  simp only [processDefaultMapping, hbeat, hsync, Bool.and_self, if_true, List.cons_append,
    List.nil_append]
  exact ⟨_, rfl⟩

/-- **C4.** In the default-mapping path (no show plan, no style profile, beat
sync on, default intensity scale 1, any positive reactivity) a beat frame with
`rms = 0.7` makes `process` return at least two commands targeting "all": a
pulse at full intensity 1 immediately followed by a release whose (cross-frame
smoothed) intensity is strictly below 1. -/
theorem C4_default_mapping_pulse_then_release
    (sine : ℚ → ℚ) (rng : ℕ → ℚ) (s : EngineState) (frame : AudioFrame)
    (now : ℚ) (pos : ℕ)
    (hplan : s.currentPlan = none) (hstyle : s.config.styleProfile = none)
    (hsync : s.config.beatSync = true) (hscale : s.config.intensityScale = 1)
    (hreact : 0 < s.config.reactivity) (hsi : s.smoothedIntensity ≤ 1)
    (hbeat : frame.isBeat = true) (hrms : frame.rms = 7/10) :
    ∃ c1 c2 rest ι,
      (process sine rng s frame now pos).1 = c1 :: c2 :: rest ∧
      c1.targetId = "all" ∧ c1.updates.intensity = some 1 ∧
      c2.targetId = "all" ∧ c2.updates.intensity = some ι ∧ ι < 1 := by
  have hdisp : (process sine rng s frame now pos).1 =
      (processDefaultMapping sine
        { s with commandHistory :=
            (s.commandHistory ++ [(now, 0)]).filter (fun h => now - h.1 < 1000) }
        frame now).1 := by
    simp only [process, hplan, hstyle]
  obtain ⟨rest, hcmds⟩ := processDefaultMapping_beat_cmds sine
    { s with commandHistory :=
        (s.commandHistory ++ [(now, 0)]).filter (fun h => now - h.1 < 1000) }
    frame now hsync hbeat
  rw [hdisp, hcmds]
  refine ⟨_, _, rest,
    lerp s.smoothedIntensity (frame.rms * s.config.intensityScale) s.config.reactivity,
    rfl, rfl, rfl, rfl, rfl, ?_⟩
  have hT1 : clamp01 s.config.reactivity ≤ 1 :=
    max_le (by norm_num) (min_le_left _ _)
  have hT0 : 0 < clamp01 s.config.reactivity := by
    have h1 : 0 < min 1 s.config.reactivity := lt_min (by norm_num) hreact
    exact lt_max_of_lt_right h1
  rw [hrms, hscale, lerp]
  set t := clamp01 s.config.reactivity
  nlinarith [mul_nonneg (sub_nonneg.mpr hsi) (sub_nonneg.mpr hT1)]

/-- Frame for the C4 witness: a beat at `rms = 0.7`. -/
def c4frame : AudioFrame :=
  { timestamp := 0, isBeat := true, isDownbeat := false, tempo := 120, beatPhase := 0,
    beatNumber := 0, rms := 7/10, energy := 1/2, peak := 1/2, spectralCentroid := 1/2,
    spectralFlux := 0, lowEnergy := 1/2, midEnergy := 1/2, highEnergy := 1/2,
    section_ := none, sectionConfidence := none }

/-- Witness for C4: the freshly constructed engine processing `c4frame`. -/
theorem C4_witness :
    (initEngine.currentPlan = none ∧ initEngine.config.styleProfile = none ∧
      initEngine.config.beatSync = true ∧ initEngine.config.intensityScale = 1 ∧
      0 < initEngine.config.reactivity ∧ initEngine.smoothedIntensity ≤ 1 ∧
      c4frame.isBeat = true ∧ c4frame.rms = 7/10) ∧
    (∃ c1 c2 rest ι,
      (process (fun _ => 0) (fun _ => 0) initEngine c4frame 0 0).1 = c1 :: c2 :: rest ∧
      c1.targetId = "all" ∧ c1.updates.intensity = some 1 ∧
      c2.targetId = "all" ∧ c2.updates.intensity = some ι ∧ ι < 1) :=
  ⟨⟨rfl, rfl, rfl, rfl, by norm_num [initEngine], by norm_num [initEngine], rfl,
      rfl⟩,
    C4_default_mapping_pulse_then_release (fun _ => 0) (fun _ => 0) initEngine c4frame 0 0
      rfl rfl rfl rfl (by norm_num [initEngine]) (by norm_num [initEngine]) rfl rfl⟩

/- ## AdvancedAnalyzer pre-analysis pipeline (src/src/audio/AdvancedAnalyzer.ts) -/

/-- A decoded audio buffer: duration in seconds, sample rate, and the first
channel's samples (`getChannelData(0)`). -/
structure AudioBuffer where
  duration : ℚ
  sampleRate : ℚ
  channelData : List ℚ
  deriving Repr, DecidableEq

/-- `AdvancedAnalyzer.analyzeBPM`: throws when no buffer is loaded; otherwise
runs the external detector (the library call `analyze(audioBuffer)`, passed in
together with its success-or-throw outcome as `detect`) inside a try/catch
that substitutes the fixed 120 BPM default on any failure. -/
def analyzeBPM (buf : Option AudioBuffer)
    (detect : AudioBuffer → Except String ℚ) : Except String ℚ :=
  match buf with
  | none => Except.error "No audio buffer loaded"
  | some b =>
      match detect b with
      | Except.ok bpm => Except.ok bpm
      | Except.error _ => Except.ok 120

/-- `AdvancedAnalyzer.generateBeatGrid`: beats every `60/bpm` seconds from 0
while `t < duration`; every 4th pushed beat (the ones pushed when
`beats.length % 4 === 1`, i.e. indices 0, 4, 8, ...) is a downbeat.  The number
of loop iterations of `for (t = 0; t < duration; t += 60/bpm)` in exact
arithmetic is `⌈duration/(60/bpm)⌉` when the interval is positive (the source
loop does not terminate on a non-positive interval, modeled as the empty
grid). -/
def generateBeatGrid (buf : Option AudioBuffer) (bpm : ℚ) : List ℚ × List ℚ :=
  match buf with
  | none => ([], [])
  | some b =>
      let beatInterval := 60 / bpm
      let n : ℕ := if 0 < beatInterval then (⌈b.duration / beatInterval⌉).toNat else 0
      ((List.range n).map (fun k => (k : ℚ) * beatInterval),
       ((List.range n).filter (fun k => k % 4 == 0)).map (fun k => (k : ℚ) * beatInterval))

/-- `AdvancedAnalyzer.calculateAverageEnergy`: RMS of channel 0 (0.5 default
when no buffer is loaded).  `Math.sqrt` is passed in as an opaque `sqrt`. -/
def calculateAverageEnergy (buf : Option AudioBuffer) (sqrt : ℚ → ℚ) : ℚ :=
  match buf with
  | none => 1/2
  | some b =>
      sqrt (((b.channelData.map (fun x => x * x)).sum) / (b.channelData.length : ℚ))

/-- One window of `detectSections`: RMS energy of samples
`[⌊t·sr⌋, ⌊(t+2)·sr⌋)` clipped to the channel length, divided by the
unclipped window width as in the source. -/
def windowEnergy (b : AudioBuffer) (sqrt : ℚ → ℚ) (t : ℚ) : ℚ :=
  let startSample := (⌊t * b.sampleRate⌋).toNat
  let endSample := (⌊(t + 2) * b.sampleRate⌋).toNat
  let hi := min endSample b.channelData.length
  let s := ((List.range (hi - startSample)).map
    (fun j => (b.channelData.getD (startSample + j) 0) * (b.channelData.getD (startSample + j) 0))).sum
  sqrt (s / ((endSample : ℚ) - (startSample : ℚ)))

/-- The section type chosen at window index `i` of `detectSections`. -/
def classifySection (normalizedEnergy : List ℚ) (i : ℕ) (duration : ℚ) : SectionType :=
  let time := (i : ℚ) * (1/2)
  let energy := normalizedEnergy.getD i 0
  let position := time / duration
  if position < 1/10 then .intro
  else if position > 9/10 then .outro
  else if energy > 7/10 then
    (if 0 < i ∧ normalizedEnergy.getD (i - 1) 0 < 1/2 then .drop else .chorus)
  else if energy < 3/10 then .breakdown
  else .verse

/-- One iteration of the section-building loop of `detectSections`: on a type
change the previous open section is closed at the current time and a new one
opened (provisionally ending at `duration`). -/
def sectionStep (duration : ℚ) (normalizedEnergy : List ℚ)
    (st : List AnalysisSection × Option AnalysisSection) (i : ℕ) :
    List AnalysisSection × Option AnalysisSection :=
  let time := (i : ℚ) * (1/2)
  let energy := normalizedEnergy.getD i 0
  let ty := classifySection normalizedEnergy i duration
  match st.2 with
  | none => (st.1, some { start := time, end_ := duration, type := ty, energy := energy })
  | some cur =>
      if cur.type = ty then st
      else (st.1 ++ [{ cur with end_ := time }],
            some { start := time, end_ := duration, type := ty, energy := energy })

/-- `AdvancedAnalyzer.detectSections`: 2-second energy windows every 0.5 s
(`⌈2·(duration-2)⌉` of them), max-normalised, then folded into typed sections;
the final open section is closed at `duration`. -/
def detectSections (buf : Option AudioBuffer) (sqrt : ℚ → ℚ) : List AnalysisSection :=
  match buf with
  | none => []
  | some b =>
      let duration := b.duration
      let nWin : ℕ := (⌈2 * (duration - 2)⌉).toNat
      let energyProfile := (List.range nWin).map (fun k => windowEnergy b sqrt ((k : ℚ) * (1/2)))
      let maxEnergy :=
        match energyProfile with
        | [] => 0
        | h :: t => t.foldl max h
      let normalizedEnergy := energyProfile.map (fun e => e / maxEnergy)
      let res := (List.range normalizedEnergy.length).foldl
        (sectionStep duration normalizedEnergy) ([], none)
      match res.2 with
      | none => res.1
      | some cur => res.1 ++ [{ cur with end_ := duration }]

/-- The analysis pipeline of `AdvancedAnalyzer.loadAndAnalyze` after the file
has been fetched: decoding (whose success-or-throw outcome is `decode`; a
decode failure is rethrown by the source), then BPM analysis, beat grid,
section detection and average energy, assembled into the stored
`PreAnalysisResult`. -/
def loadAndAnalyze (decode : Except String AudioBuffer)
    (detect : AudioBuffer → Except String ℚ) (sqrt : ℚ → ℚ) :
    Except String PreAnalysisResult :=
  match decode with
  | Except.error e => Except.error e
  | Except.ok buf =>
      match analyzeBPM (some buf) detect with
      | Except.error e => Except.error e
      | Except.ok bpm =>
          let grid := generateBeatGrid (some buf) bpm
          Except.ok
            { bpm := bpm
              beats := grid.1
              downbeats := grid.2
              sections := detectSections (some buf) sqrt
              averageEnergy := calculateAverageEnergy (some buf) sqrt }

/-- **C9.** With a successfully decoded buffer, the load always completes with
a full `PreAnalysisResult` whatever the external tempo detector does: if the
detector throws, the stored BPM is the fixed 120 default; if it succeeds, the
detected BPM is used unchanged. -/
theorem C9_tempo_failure_falls_back_to_120
    (buf : AudioBuffer) (detect : AudioBuffer → Except String ℚ) (sqrt : ℚ → ℚ) :
    ∃ r : PreAnalysisResult,
      loadAndAnalyze (Except.ok buf) detect sqrt = Except.ok r ∧
      (∀ e, detect buf = Except.error e → r.bpm = 120) ∧
      (∀ bpm, detect buf = Except.ok bpm → r.bpm = bpm) := by
  cases hd : detect buf with
  | ok bpm =>
      refine ⟨⟨bpm, (generateBeatGrid (some buf) bpm).1, (generateBeatGrid (some buf) bpm).2,
          detectSections (some buf) sqrt, calculateAverageEnergy (some buf) sqrt⟩, ?_, ?_, ?_⟩
      · simp only [loadAndAnalyze, analyzeBPM, hd]
      · intro e he
        simp at he
      · intro b hb
        exact Except.ok.inj hb
  | error e =>
      refine ⟨⟨120, (generateBeatGrid (some buf) 120).1, (generateBeatGrid (some buf) 120).2,
          detectSections (some buf) sqrt, calculateAverageEnergy (some buf) sqrt⟩, ?_, ?_, ?_⟩
      · simp only [loadAndAnalyze, analyzeBPM, hd]
      · intro e' _
        rfl
      · intro b hb
        simp at hb

end LightShow
